import Mathlib

/-!
Shallow embedding of the `pocket_prover` library (src/lib.rs) and proofs
about its counting, path-semantical, quality and trait layers.

Machine integers (`u64`) are modelled as `Nat` together with explicit
bounds `< 2 ^ 64`; wrapping arithmetic is written with explicit `% 2 ^ 64`.
Closures are modelled as Lean functions; the ambient random seed used by
the quality layer is modelled by explicit threading of a seed supply in a
dedicated section.
-/

namespace PP

/-- The all-zero word `F` (the False proposition). -/
def Fw : Nat := 0b00000000000000000000000000000000000000000000000000000000000000000

/-- Bit pattern `P0 = 0xaaaa_aaaa_aaaa_aaaa`. -/
def P0 : Nat := 0b1010101010101010101010101010101010101010101010101010101010101010

/-- Bit pattern `P1 = 0xcccc_cccc_cccc_cccc`. -/
def P1 : Nat := 0b1100110011001100110011001100110011001100110011001100110011001100

/-- Bit pattern `P2 = 0xf0f0_f0f0_f0f0_f0f0`. -/
def P2 : Nat := 0b1111000011110000111100001111000011110000111100001111000011110000

/-- Bit pattern `P3 = 0xff00_ff00_ff00_ff00`. -/
def P3 : Nat := 0b1111111100000000111111110000000011111111000000001111111100000000

/-- Bit pattern `P4 = 0xffff_0000_ffff_0000`. -/
def P4 : Nat := 0b1111111111111111000000000000000011111111111111110000000000000000

/-- Bit pattern `P5 = 0xffff_ffff_0000_0000`. -/
def P5 : Nat := 0b1111111111111111111111111111111100000000000000000000000000000000

/-- The all-ones word `T` (the True proposition). -/
def Tw : Nat := 0b1111111111111111111111111111111111111111111111111111111111111111

/-- Modulus of 64-bit arithmetic. -/
def M64 : Nat := 2 ^ 64

theorem Tw_eq : Tw = 2 ^ 64 - 1 := by decide

theorem Tw_lt : Tw < 2 ^ 64 := by decide

theorem testBit_Tw {j : Nat} (h : j < 64) : Tw.testBit j = true := by
  rw [Tw_eq, Nat.testBit_two_pow_sub_one]
  simpa using h

theorem testBit_Fw (j : Nat) : Fw.testBit j = false := by
  simp [Fw]

/-- Connective `not(a) = !a` (bitwise complement on 64-bit words). -/
def notW (a : Nat) : Nat := a ^^^ Tw

/-- Connective `and(a, b) = a & b`. -/
def andW (a b : Nat) : Nat := a &&& b

/-- Connective `or(a, b) = a | b`. -/
def orW (a b : Nat) : Nat := a ||| b

/-- Connective `xor(a, b) = a ^ b`. -/
def xorW (a b : Nat) : Nat := a ^^^ b

/-- Connective `eq(a, b) = !(a ^ b)` (bitwise XNOR). -/
def eqW (a b : Nat) : Nat := notW (a ^^^ b)

/-- Connective `imply(a, b) = !a | b`. -/
def implyW (a b : Nat) : Nat := notW a ||| b

theorem notW_lt {a : Nat} (h : a < 2 ^ 64) : notW a < 2 ^ 64 :=
  Nat.xor_lt_two_pow h Tw_lt

theorem orW_lt {a b : Nat} (ha : a < 2 ^ 64) (hb : b < 2 ^ 64) : orW a b < 2 ^ 64 :=
  Nat.or_lt_two_pow ha hb

theorem andW_lt_left {a b : Nat} (ha : a < 2 ^ 64) : andW a b < 2 ^ 64 :=
  lt_of_le_of_lt Nat.and_le_left ha

theorem implyW_lt {a b : Nat} (ha : a < 2 ^ 64) (hb : b < 2 ^ 64) : implyW a b < 2 ^ 64 :=
  orW_lt (notW_lt ha) hb

theorem testBit_notW {a j : Nat} (hj : j < 64) : (notW a).testBit j = !a.testBit j := by
  simp [notW, Nat.testBit_xor, testBit_Tw hj]

theorem testBit_andW (a b j : Nat) : (andW a b).testBit j = (a.testBit j && b.testBit j) := by
  simp [andW, Nat.testBit_and]

theorem testBit_orW (a b j : Nat) : (orW a b).testBit j = (a.testBit j || b.testBit j) := by
  simp [orW, Nat.testBit_or]

theorem testBit_xorW (a b j : Nat) : (xorW a b).testBit j = (a.testBit j ^^ b.testBit j) := by
  simp [xorW, Nat.testBit_xor]

theorem testBit_eqW {a b : Nat} {j : Nat} (hj : j < 64) :
    (eqW a b).testBit j = (a.testBit j == b.testBit j) := by
  rw [eqW, testBit_notW hj]
  simp [Nat.testBit_xor]
  cases a.testBit j <;> cases b.testBit j <;> rfl

theorem testBit_implyW {a b : Nat} {j : Nat} (hj : j < 64) :
    (implyW a b).testBit j = (!a.testBit j || b.testBit j) := by
  rw [implyW, Nat.testBit_or, testBit_notW hj]

/-- Population count of the low 64 bits of a word (`u64::count_ones`). -/
def popcount64 (x : Nat) : Nat := (List.range 64).countP (fun j => x.testBit j)

/-- Column code of a list of truth-table words: packs bit `j` of each word
of `vs` into a number whose bit `i` is bit `j` of `vs[i]`; column `j` of
the list is the truth assignment encoded by that row of the truth table. -/
def colCode (vs : List Nat) (j : Nat) : Nat :=
  vs.foldr (fun v acc => (if v.testBit j then 1 else 0) + 2 * acc) 0

/-- Number of assignments of `n` boolean variables (coded as numbers below
`2 ^ n`, bit `i` giving the value of variable `i`) satisfying `g`. -/
def satCount (n : Nat) (g : Nat → Bool) : Nat := (List.range (2 ^ n)).countP g

/-- The closure `f` is the bitwise lift of the pure boolean function `g` of
`n` variables: on in-range argument lists it produces an in-range word
whose bit `j` is `g` applied to the code of column `j` of the arguments. -/
def LiftOK (n : Nat) (f : List Nat → Nat) (g : Nat → Bool) : Prop :=
  ∀ vs : List Nat, vs.length = n → (∀ v ∈ vs, v < 2 ^ 64) →
    f vs < 2 ^ 64 ∧ ∀ j < 64, (f vs).testBit j = g (colCode vs j)

theorem colCode_nil (j : Nat) : colCode [] j = 0 := rfl

theorem colCode_cons (v : Nat) (vs : List Nat) (j : Nat) :
    colCode (v :: vs) j = (if v.testBit j then 1 else 0) + 2 * colCode vs j := rfl

theorem colCode_append (xs ys : List Nat) (j : Nat) :
    colCode (xs ++ ys) j = colCode xs j + 2 ^ xs.length * colCode ys j := by
  induction xs with
  | nil => simp [colCode_nil]
  | cons v xs ih =>
      simp only [List.cons_append, colCode_cons, ih, List.length_cons]
      ring

theorem colCode_lt (vs : List Nat) (j : Nat) : colCode vs j < 2 ^ vs.length := by
  induction vs with
  | nil => simp [colCode_nil]
  | cons v vs ih =>
      rw [colCode_cons, List.length_cons, pow_succ]
      cases h : v.testBit j <;> simp <;> omega

theorem satCount_le (n : Nat) (g : Nat → Bool) : satCount n g ≤ 2 ^ n := by
  simpa [satCount] using (List.countP_le_length (l := List.range (2 ^ n)) (p := g))

/-- Bridge from `List.countP` over a range to a `Finset` sum of indicators. -/
theorem countP_range_eq_sum (m : Nat) (p : Nat → Bool) :
    (List.range m).countP p = ∑ x ∈ Finset.range m, (if p x then 1 else 0) := by
  induction m with
  | zero => simp
  | succ m ih =>
      rw [List.range_succ, List.countP_append, Finset.sum_range_succ, ih]
      simp [List.countP_cons]

/-- Splitting a count over `range (a * b)` along the decomposition
`j = r + a * q` with `r < a` and `q < b`. -/
theorem countP_range_mul (a b : Nat) (p : Nat → Bool) :
    (List.range (a * b)).countP p
      = ∑ q ∈ Finset.range b, (List.range a).countP (fun r => p (r + a * q)) := by
  induction b with
  | zero => simp
  | succ b ih =>
      rw [Nat.mul_succ, List.range_add, List.countP_append, ih, Finset.sum_range_succ,
        List.countP_map]
      congr 1
      apply List.countP_congr
      intro r _
      simp [Nat.add_comm]

/-- The transposed splitting: summing over the low `r` part outside. -/
theorem countP_range_mul_comm (a b : Nat) (p : Nat → Bool) :
    (List.range (a * b)).countP p
      = ∑ r ∈ Finset.range a, (List.range b).countP (fun q => p (r + a * q)) := by
  rw [countP_range_mul]
  simp only [countP_range_eq_sum]
  exact Finset.sum_comm

theorem countP_erase {l : List Nat} {a : Nat} (p : Nat → Bool) (h : a ∈ l) :
    l.countP p = (l.erase a).countP p + (if p a then 1 else 0) := by
  have hperm := List.perm_cons_erase h
  rw [hperm.countP_eq p, List.countP_cons]

/-- Wrapper `call`: the pure counting layer evaluates the closure once; the
ambient-seed bookkeeping it performs in the source is modelled explicitly
by the seed-threading definitions of the quality section below. -/
def call (f : Unit → Nat) : Nat := f ()

/-- Counts the number of solutions of a 1-argument boolean function. -/
def count1 (f : Nat → Nat) : Nat := popcount64 (call (fun _ => f P0 &&& 0x3))

/-- Counts the number of solutions of a 2-argument boolean function. -/
def count2 (f : Nat → Nat → Nat) : Nat := popcount64 (call (fun _ => f P0 P1 &&& 0xf))

/-- Counts the number of solutions of a 3-argument boolean function. -/
def count3 (f : Nat → Nat → Nat → Nat) : Nat :=
  popcount64 (call (fun _ => f P0 P1 P2 &&& 0xff))

/-- Counts the number of solutions of a 4-argument boolean function. -/
def count4 (f : Nat → Nat → Nat → Nat → Nat) : Nat :=
  popcount64 (call (fun _ => f P0 P1 P2 P3 &&& 0xffff))

/-- Counts the number of solutions of a 5-argument boolean function. -/
def count5 (f : Nat → Nat → Nat → Nat → Nat → Nat) : Nat :=
  popcount64 (call (fun _ => f P0 P1 P2 P3 P4 &&& 0xffffffff))

/-- Counts the number of solutions of a 6-argument boolean function. -/
def count6 (f : Nat → Nat → Nat → Nat → Nat → Nat → Nat) : Nat :=
  popcount64 (call (fun _ => f P0 P1 P2 P3 P4 P5))

/-- Counts the number of solutions of a 7-argument boolean function. -/
def count7 (f : Nat → Nat → Nat → Nat → Nat → Nat → Nat → Nat) : Nat :=
  popcount64 (call (fun _ => f P0 P1 P2 P3 P4 P5 Fw)) +
  popcount64 (call (fun _ => f P0 P1 P2 P3 P4 P5 Tw))

/-- Counts the number of solutions of an 8-argument boolean function. -/
def count8 (f : Nat → Nat → Nat → Nat → Nat → Nat → Nat → Nat → Nat) : Nat :=
  popcount64 (call (fun _ => f P0 P1 P2 P3 P4 P5 Fw Fw)) +
  popcount64 (call (fun _ => f P0 P1 P2 P3 P4 P5 Fw Tw)) +
  popcount64 (call (fun _ => f P0 P1 P2 P3 P4 P5 Tw Fw)) +
  popcount64 (call (fun _ => f P0 P1 P2 P3 P4 P5 Tw Tw))

/-- Counts the number of solutions of a 9-argument boolean function. -/
def count9 (f : Nat → Nat → Nat → Nat → Nat → Nat → Nat → Nat → Nat → Nat) : Nat :=
  popcount64 (call (fun _ => f P0 P1 P2 P3 P4 P5 Fw Fw Fw)) +
  popcount64 (call (fun _ => f P0 P1 P2 P3 P4 P5 Fw Fw Tw)) +
  popcount64 (call (fun _ => f P0 P1 P2 P3 P4 P5 Fw Tw Fw)) +
  popcount64 (call (fun _ => f P0 P1 P2 P3 P4 P5 Fw Tw Tw)) +
  popcount64 (call (fun _ => f P0 P1 P2 P3 P4 P5 Tw Fw Fw)) +
  popcount64 (call (fun _ => f P0 P1 P2 P3 P4 P5 Tw Fw Tw)) +
  popcount64 (call (fun _ => f P0 P1 P2 P3 P4 P5 Tw Tw Fw)) +
  popcount64 (call (fun _ => f P0 P1 P2 P3 P4 P5 Tw Tw Tw))

/-- Counts the number of solutions of a 10-argument boolean function. -/
def count10 (f : Nat → Nat → Nat → Nat → Nat → Nat → Nat → Nat → Nat → Nat → Nat) : Nat :=
  popcount64 (call (fun _ => f P0 P1 P2 P3 P4 P5 Fw Fw Fw Fw)) +
  popcount64 (call (fun _ => f P0 P1 P2 P3 P4 P5 Fw Fw Fw Tw)) +
  popcount64 (call (fun _ => f P0 P1 P2 P3 P4 P5 Fw Fw Tw Fw)) +
  popcount64 (call (fun _ => f P0 P1 P2 P3 P4 P5 Fw Fw Tw Tw)) +
  popcount64 (call (fun _ => f P0 P1 P2 P3 P4 P5 Fw Tw Fw Fw)) +
  popcount64 (call (fun _ => f P0 P1 P2 P3 P4 P5 Fw Tw Fw Tw)) +
  popcount64 (call (fun _ => f P0 P1 P2 P3 P4 P5 Fw Tw Tw Fw)) +
  popcount64 (call (fun _ => f P0 P1 P2 P3 P4 P5 Fw Tw Tw Tw)) +
  popcount64 (call (fun _ => f P0 P1 P2 P3 P4 P5 Tw Fw Fw Fw)) +
  popcount64 (call (fun _ => f P0 P1 P2 P3 P4 P5 Tw Fw Fw Tw)) +
  popcount64 (call (fun _ => f P0 P1 P2 P3 P4 P5 Tw Fw Tw Fw)) +
  popcount64 (call (fun _ => f P0 P1 P2 P3 P4 P5 Tw Fw Tw Tw)) +
  popcount64 (call (fun _ => f P0 P1 P2 P3 P4 P5 Tw Tw Fw Fw)) +
  popcount64 (call (fun _ => f P0 P1 P2 P3 P4 P5 Tw Tw Fw Tw)) +
  popcount64 (call (fun _ => f P0 P1 P2 P3 P4 P5 Tw Tw Tw Fw)) +
  popcount64 (call (fun _ => f P0 P1 P2 P3 P4 P5 Tw Tw Tw Tw))

/-- Extended-assignment prefix written into `args[0..k]`: entry `idx` is
`T` exactly when `(i & 2^idx) == 2^idx`, that is, when bit `idx` of the
case index `i` is set. -/
def bitArgs : Nat → Nat → List Nat
  | 0, _ => []
  | k + 1, i => (if i.testBit 0 then Tw else Fw) :: bitArgs k (i / 2)

/-- Counts the number of solutions of an n-argument boolean function.
Sums accumulate in `u64`, hence the explicit `% 2 ^ 64` on the recursive
branches. -/
def countn : Nat → (List Nat → Nat) → Nat
  | 0, f => popcount64 (call (fun _ => f []))
  | 1, f => count1 (fun a => f [a])
  | 2, f => count2 (fun a b => f [a, b])
  | 3, f => count3 (fun a b c => f [a, b, c])
  | 4, f => count4 (fun a b c d => f [a, b, c, d])
  | 5, f => count5 (fun a b c d e => f [a, b, c, d, e])
  | 6, f => count6 (fun a b c d e f6 => f [a, b, c, d, e, f6])
  | 7, f => count7 (fun a b c d e f6 g => f [a, b, c, d, e, f6, g])
  | 8, f => count8 (fun a b c d e f6 g h => f [a, b, c, d, e, f6, g, h])
  | 9, f => count9 (fun a b c d e f6 g h i => f [a, b, c, d, e, f6, g, h, i])
  | 10, f => count10 (fun a b c d e f6 g h i j => f [a, b, c, d, e, f6, g, h, i, j])
  | n + 11, f =>
    if n + 11 ≥ 19 then
      (∑ i ∈ Finset.range 512,
        countn (n + 11 - 9) (fun vs => f (bitArgs 9 i ++ vs))) % 2 ^ 64
    else
      (∑ i ∈ Finset.range 32,
        countn (n + 11 - 5) (fun vs => f (bitArgs 5 i ++ vs))) % 2 ^ 64
  termination_by n _ => n

theorem colCode_P1 : ∀ j < 2, colCode [P0] j = j := by decide

theorem colCode_P2 : ∀ j < 4, colCode [P0, P1] j = j := by decide

theorem colCode_P3 : ∀ j < 8, colCode [P0, P1, P2] j = j := by decide

theorem colCode_P4 : ∀ j < 16, colCode [P0, P1, P2, P3] j = j := by decide

theorem colCode_P5 : ∀ j < 32, colCode [P0, P1, P2, P3, P4] j = j := by decide

theorem colCode_P6 : ∀ j < 64, colCode [P0, P1, P2, P3, P4, P5] j = j := by decide

theorem countP_range_restrict (B : Nat) (hB : B ≤ 64) (p : Nat → Bool) :
    (List.range 64).countP (fun j => p j && decide (j < B)) = (List.range B).countP p := by
  have h64 : (64 : Nat) = B + (64 - B) := by omega
  rw [h64, List.range_add, List.countP_append]
  have h1 : (List.range B).countP (fun j => p j && decide (j < B))
      = (List.range B).countP p := by
    apply List.countP_congr
    intro j hj
    rw [List.mem_range] at hj
    simp [hj]
  have h2 : ((List.range (64 - B)).map (B + ·)).countP (fun j => p j && decide (j < B)) = 0 := by
    rw [List.countP_map]
    apply List.countP_eq_zero.mpr
    intro j _
    simp
  omega

theorem popcount_masked (x B : Nat) (hB : B ≤ 64) :
    popcount64 (x &&& (2 ^ B - 1)) = (List.range B).countP (fun j => x.testBit j) := by
  unfold popcount64
  have h : ∀ j, (x &&& (2 ^ B - 1)).testBit j = (x.testBit j && decide (j < B)) := by
    intro j
    rw [Nat.testBit_and, Nat.testBit_two_pow_sub_one]
  calc (List.range 64).countP (fun j => (x &&& (2 ^ B - 1)).testBit j)
      = (List.range 64).countP (fun j => x.testBit j && decide (j < B)) := by
        apply List.countP_congr; intro j _; rw [h j]
    _ = (List.range B).countP (fun j => x.testBit j) := countP_range_restrict B hB _

theorem countn_base1 (f : List Nat → Nat) (g : Nat → Bool) (hf : LiftOK 1 f g) :
    countn 1 f = satCount 1 g := by
  have h := hf [P0] rfl (by decide)
  rw [show countn 1 f = count1 (fun a => f [a]) by rw [countn]]
  unfold count1 call satCount
  rw [show (0x3 : Nat) = 2 ^ 2 - 1 from rfl, popcount_masked _ 2 (by norm_num)]
  apply List.countP_congr
  intro j hj
  rw [List.mem_range] at hj
  rw [h.2 j (by omega), colCode_P1 j hj]

theorem countn_base2 (f : List Nat → Nat) (g : Nat → Bool) (hf : LiftOK 2 f g) :
    countn 2 f = satCount 2 g := by
  have h := hf [P0, P1] rfl (by decide)
  rw [show countn 2 f = count2 (fun a b => f [a, b]) by rw [countn]]
  unfold count2 call satCount
  rw [show (0xf : Nat) = 2 ^ 4 - 1 from rfl, popcount_masked _ 4 (by norm_num)]
  apply List.countP_congr
  intro j hj
  rw [List.mem_range] at hj
  rw [h.2 j (by omega), colCode_P2 j hj]

theorem countn_base3 (f : List Nat → Nat) (g : Nat → Bool) (hf : LiftOK 3 f g) :
    countn 3 f = satCount 3 g := by
  have h := hf [P0, P1, P2] rfl (by decide)
  rw [show countn 3 f = count3 (fun a b c => f [a, b, c]) by rw [countn]]
  unfold count3 call satCount
  rw [show (0xff : Nat) = 2 ^ 8 - 1 from rfl, popcount_masked _ 8 (by norm_num)]
  apply List.countP_congr
  intro j hj
  rw [List.mem_range] at hj
  rw [h.2 j (by omega), colCode_P3 j hj]

theorem countn_base4 (f : List Nat → Nat) (g : Nat → Bool) (hf : LiftOK 4 f g) :
    countn 4 f = satCount 4 g := by
  have h := hf [P0, P1, P2, P3] rfl (by decide)
  rw [show countn 4 f = count4 (fun a b c d => f [a, b, c, d]) by rw [countn]]
  unfold count4 call satCount
  rw [show (0xffff : Nat) = 2 ^ 16 - 1 from rfl, popcount_masked _ 16 (by norm_num)]
  apply List.countP_congr
  intro j hj
  rw [List.mem_range] at hj
  rw [h.2 j (by omega), colCode_P4 j hj]

theorem countn_base5 (f : List Nat → Nat) (g : Nat → Bool) (hf : LiftOK 5 f g) :
    countn 5 f = satCount 5 g := by
  have h := hf [P0, P1, P2, P3, P4] rfl (by decide)
  rw [show countn 5 f = count5 (fun a b c d e => f [a, b, c, d, e]) by rw [countn]]
  unfold count5 call satCount
  rw [show (0xffffffff : Nat) = 2 ^ 32 - 1 from rfl, popcount_masked _ 32 (by norm_num)]
  apply List.countP_congr
  intro j hj
  rw [List.mem_range] at hj
  rw [h.2 j (by omega), colCode_P5 j hj]

theorem countn_base6 (f : List Nat → Nat) (g : Nat → Bool) (hf : LiftOK 6 f g) :
    countn 6 f = satCount 6 g := by
  have h := hf [P0, P1, P2, P3, P4, P5] rfl (by decide)
  rw [show countn 6 f = count6 (fun a b c d e f6 => f [a, b, c, d, e, f6]) by rw [countn]]
  unfold count6 call satCount popcount64
  apply List.countP_congr
  intro j hj
  rw [List.mem_range] at hj
  rw [h.2 j hj, colCode_P6 j hj]

/-- One evaluation batch of `countK` for `K ≥ 7`: the `T`/`F` suffix fixes
the high variables to the constant code `c`, and the popcount counts the
64 assignments of the first six variables. -/
theorem countn_term {n : Nat} (f : List Nat → Nat) (g : Nat → Bool) (hf : LiftOK n f g)
    (ws : List Nat) (hlen : 6 + ws.length = n) (hb : ∀ v ∈ ws, v < 2 ^ 64)
    (c : Nat) (hcol : ∀ j < 64, colCode ws j = c) :
    popcount64 (f ([P0, P1, P2, P3, P4, P5] ++ ws))
      = (List.range 64).countP (fun j => g (j + 64 * c)) := by
  have hlen2 : ([P0, P1, P2, P3, P4, P5] ++ ws).length = n := by
    simp only [List.length_append, List.length_cons, List.length_nil]
    omega
  have hball : ∀ v ∈ [P0, P1, P2, P3, P4, P5] ++ ws, v < 2 ^ 64 := by
    intro v hv
    rcases List.mem_append.mp hv with h | h
    · simp only [List.mem_cons, List.not_mem_nil, or_false] at h
      rcases h with rfl | rfl | rfl | rfl | rfl | rfl <;> decide
    · exact hb v h
  have h := hf _ hlen2 hball
  unfold popcount64
  apply List.countP_congr
  intro j hj
  rw [List.mem_range] at hj
  rw [h.2 j hj, colCode_append, colCode_P6 j hj, hcol j hj]
  norm_num

theorem satCount_split (k : Nat) (g : Nat → Bool) :
    satCount (6 + k) g
      = ∑ q ∈ Finset.range (2 ^ k), (List.range 64).countP (fun r => g (r + 64 * q)) := by
  unfold satCount
  rw [show (2 : Nat) ^ (6 + k) = 64 * 2 ^ k by rw [pow_add]; norm_num, countP_range_mul]

theorem countn_base7 (f : List Nat → Nat) (g : Nat → Bool) (hf : LiftOK 7 f g) :
    countn 7 f = satCount 7 g := by
  have t0 := countn_term f g hf [Fw] rfl (by decide) 0
    (fun j hj => by simp [colCode_cons, colCode_nil, testBit_Fw])
  have t1 := countn_term f g hf [Tw] rfl (by decide) 1
    (fun j hj => by simp [colCode_cons, colCode_nil, testBit_Tw hj])
  have hs : satCount 7 g
      = ∑ q ∈ Finset.range 2, (List.range 64).countP (fun r => g (r + 64 * q)) :=
    satCount_split 1 g
  rw [show countn 7 f = count7 (fun a b c d e f6 g7 => f [a, b, c, d, e, f6, g7]) by rw [countn]]
  unfold count7 call
  show popcount64 (f ([P0, P1, P2, P3, P4, P5] ++ [Fw]))
      + popcount64 (f ([P0, P1, P2, P3, P4, P5] ++ [Tw])) = satCount 7 g
  rw [t0, t1, hs]
  simp only [Finset.sum_range_succ, Finset.sum_range_zero]
  omega

theorem countn_base8 (f : List Nat → Nat) (g : Nat → Bool) (hf : LiftOK 8 f g) :
    countn 8 f = satCount 8 g := by
  have t0 := countn_term f g hf [Fw, Fw] rfl (by decide) 0
    (fun j hj => by simp [colCode_cons, colCode_nil, testBit_Fw, testBit_Tw hj])
  have t1 := countn_term f g hf [Fw, Tw] rfl (by decide) 2
    (fun j hj => by simp [colCode_cons, colCode_nil, testBit_Fw, testBit_Tw hj])
  have t2 := countn_term f g hf [Tw, Fw] rfl (by decide) 1
    (fun j hj => by simp [colCode_cons, colCode_nil, testBit_Fw, testBit_Tw hj])
  have t3 := countn_term f g hf [Tw, Tw] rfl (by decide) 3
    (fun j hj => by simp [colCode_cons, colCode_nil, testBit_Fw, testBit_Tw hj])
  have hs : satCount 8 g
      = ∑ q ∈ Finset.range 4, (List.range 64).countP (fun r => g (r + 64 * q)) :=
    satCount_split 2 g
  rw [show countn 8 f = count8 (fun a b c d e f6 g7 h => f [a, b, c, d, e, f6, g7, h]) by rw [countn]]
  unfold count8 call
  show popcount64 (f ([P0, P1, P2, P3, P4, P5] ++ [Fw, Fw]))
      + popcount64 (f ([P0, P1, P2, P3, P4, P5] ++ [Fw, Tw]))
      + popcount64 (f ([P0, P1, P2, P3, P4, P5] ++ [Tw, Fw]))
      + popcount64 (f ([P0, P1, P2, P3, P4, P5] ++ [Tw, Tw]))
      = satCount 8 g
  rw [t0, t1, t2, t3, hs]
  simp only [Finset.sum_range_succ, Finset.sum_range_zero]
  omega

theorem countn_base9 (f : List Nat → Nat) (g : Nat → Bool) (hf : LiftOK 9 f g) :
    countn 9 f = satCount 9 g := by
  have t0 := countn_term f g hf [Fw, Fw, Fw] rfl (by decide) 0
    (fun j hj => by simp [colCode_cons, colCode_nil, testBit_Fw, testBit_Tw hj])
  have t1 := countn_term f g hf [Fw, Fw, Tw] rfl (by decide) 4
    (fun j hj => by simp [colCode_cons, colCode_nil, testBit_Fw, testBit_Tw hj])
  have t2 := countn_term f g hf [Fw, Tw, Fw] rfl (by decide) 2
    (fun j hj => by simp [colCode_cons, colCode_nil, testBit_Fw, testBit_Tw hj])
  have t3 := countn_term f g hf [Fw, Tw, Tw] rfl (by decide) 6
    (fun j hj => by simp [colCode_cons, colCode_nil, testBit_Fw, testBit_Tw hj])
  have t4 := countn_term f g hf [Tw, Fw, Fw] rfl (by decide) 1
    (fun j hj => by simp [colCode_cons, colCode_nil, testBit_Fw, testBit_Tw hj])
  have t5 := countn_term f g hf [Tw, Fw, Tw] rfl (by decide) 5
    (fun j hj => by simp [colCode_cons, colCode_nil, testBit_Fw, testBit_Tw hj])
  have t6 := countn_term f g hf [Tw, Tw, Fw] rfl (by decide) 3
    (fun j hj => by simp [colCode_cons, colCode_nil, testBit_Fw, testBit_Tw hj])
  have t7 := countn_term f g hf [Tw, Tw, Tw] rfl (by decide) 7
    (fun j hj => by simp [colCode_cons, colCode_nil, testBit_Fw, testBit_Tw hj])
  have hs : satCount 9 g
      = ∑ q ∈ Finset.range 8, (List.range 64).countP (fun r => g (r + 64 * q)) :=
    satCount_split 3 g
  rw [show countn 9 f = count9 (fun a b c d e f6 g7 h i => f [a, b, c, d, e, f6, g7, h, i]) by rw [countn]]
  unfold count9 call
  show popcount64 (f ([P0, P1, P2, P3, P4, P5] ++ [Fw, Fw, Fw]))
      + popcount64 (f ([P0, P1, P2, P3, P4, P5] ++ [Fw, Fw, Tw]))
      + popcount64 (f ([P0, P1, P2, P3, P4, P5] ++ [Fw, Tw, Fw]))
      + popcount64 (f ([P0, P1, P2, P3, P4, P5] ++ [Fw, Tw, Tw]))
      + popcount64 (f ([P0, P1, P2, P3, P4, P5] ++ [Tw, Fw, Fw]))
      + popcount64 (f ([P0, P1, P2, P3, P4, P5] ++ [Tw, Fw, Tw]))
      + popcount64 (f ([P0, P1, P2, P3, P4, P5] ++ [Tw, Tw, Fw]))
      + popcount64 (f ([P0, P1, P2, P3, P4, P5] ++ [Tw, Tw, Tw]))
      = satCount 9 g
  rw [t0, t1, t2, t3, t4, t5, t6, t7, hs]
  simp only [Finset.sum_range_succ, Finset.sum_range_zero]
  omega

theorem countn_base10 (f : List Nat → Nat) (g : Nat → Bool) (hf : LiftOK 10 f g) :
    countn 10 f = satCount 10 g := by
  have t0 := countn_term f g hf [Fw, Fw, Fw, Fw] rfl (by decide) 0
    (fun j hj => by simp [colCode_cons, colCode_nil, testBit_Fw, testBit_Tw hj])
  have t1 := countn_term f g hf [Fw, Fw, Fw, Tw] rfl (by decide) 8
    (fun j hj => by simp [colCode_cons, colCode_nil, testBit_Fw, testBit_Tw hj])
  have t2 := countn_term f g hf [Fw, Fw, Tw, Fw] rfl (by decide) 4
    (fun j hj => by simp [colCode_cons, colCode_nil, testBit_Fw, testBit_Tw hj])
  have t3 := countn_term f g hf [Fw, Fw, Tw, Tw] rfl (by decide) 12
    (fun j hj => by simp [colCode_cons, colCode_nil, testBit_Fw, testBit_Tw hj])
  have t4 := countn_term f g hf [Fw, Tw, Fw, Fw] rfl (by decide) 2
    (fun j hj => by simp [colCode_cons, colCode_nil, testBit_Fw, testBit_Tw hj])
  have t5 := countn_term f g hf [Fw, Tw, Fw, Tw] rfl (by decide) 10
    (fun j hj => by simp [colCode_cons, colCode_nil, testBit_Fw, testBit_Tw hj])
  have t6 := countn_term f g hf [Fw, Tw, Tw, Fw] rfl (by decide) 6
    (fun j hj => by simp [colCode_cons, colCode_nil, testBit_Fw, testBit_Tw hj])
  have t7 := countn_term f g hf [Fw, Tw, Tw, Tw] rfl (by decide) 14
    (fun j hj => by simp [colCode_cons, colCode_nil, testBit_Fw, testBit_Tw hj])
  have t8 := countn_term f g hf [Tw, Fw, Fw, Fw] rfl (by decide) 1
    (fun j hj => by simp [colCode_cons, colCode_nil, testBit_Fw, testBit_Tw hj])
  have t9 := countn_term f g hf [Tw, Fw, Fw, Tw] rfl (by decide) 9
    (fun j hj => by simp [colCode_cons, colCode_nil, testBit_Fw, testBit_Tw hj])
  have t10 := countn_term f g hf [Tw, Fw, Tw, Fw] rfl (by decide) 5
    (fun j hj => by simp [colCode_cons, colCode_nil, testBit_Fw, testBit_Tw hj])
  have t11 := countn_term f g hf [Tw, Fw, Tw, Tw] rfl (by decide) 13
    (fun j hj => by simp [colCode_cons, colCode_nil, testBit_Fw, testBit_Tw hj])
  have t12 := countn_term f g hf [Tw, Tw, Fw, Fw] rfl (by decide) 3
    (fun j hj => by simp [colCode_cons, colCode_nil, testBit_Fw, testBit_Tw hj])
  have t13 := countn_term f g hf [Tw, Tw, Fw, Tw] rfl (by decide) 11
    (fun j hj => by simp [colCode_cons, colCode_nil, testBit_Fw, testBit_Tw hj])
  have t14 := countn_term f g hf [Tw, Tw, Tw, Fw] rfl (by decide) 7
    (fun j hj => by simp [colCode_cons, colCode_nil, testBit_Fw, testBit_Tw hj])
  have t15 := countn_term f g hf [Tw, Tw, Tw, Tw] rfl (by decide) 15
    (fun j hj => by simp [colCode_cons, colCode_nil, testBit_Fw, testBit_Tw hj])
  have hs : satCount 10 g
      = ∑ q ∈ Finset.range 16, (List.range 64).countP (fun r => g (r + 64 * q)) :=
    satCount_split 4 g
  rw [show countn 10 f = count10 (fun a b c d e f6 g7 h i j2 => f [a, b, c, d, e, f6, g7, h, i, j2]) by rw [countn]]
  unfold count10 call
  show popcount64 (f ([P0, P1, P2, P3, P4, P5] ++ [Fw, Fw, Fw, Fw]))
      + popcount64 (f ([P0, P1, P2, P3, P4, P5] ++ [Fw, Fw, Fw, Tw]))
      + popcount64 (f ([P0, P1, P2, P3, P4, P5] ++ [Fw, Fw, Tw, Fw]))
      + popcount64 (f ([P0, P1, P2, P3, P4, P5] ++ [Fw, Fw, Tw, Tw]))
      + popcount64 (f ([P0, P1, P2, P3, P4, P5] ++ [Fw, Tw, Fw, Fw]))
      + popcount64 (f ([P0, P1, P2, P3, P4, P5] ++ [Fw, Tw, Fw, Tw]))
      + popcount64 (f ([P0, P1, P2, P3, P4, P5] ++ [Fw, Tw, Tw, Fw]))
      + popcount64 (f ([P0, P1, P2, P3, P4, P5] ++ [Fw, Tw, Tw, Tw]))
      + popcount64 (f ([P0, P1, P2, P3, P4, P5] ++ [Tw, Fw, Fw, Fw]))
      + popcount64 (f ([P0, P1, P2, P3, P4, P5] ++ [Tw, Fw, Fw, Tw]))
      + popcount64 (f ([P0, P1, P2, P3, P4, P5] ++ [Tw, Fw, Tw, Fw]))
      + popcount64 (f ([P0, P1, P2, P3, P4, P5] ++ [Tw, Fw, Tw, Tw]))
      + popcount64 (f ([P0, P1, P2, P3, P4, P5] ++ [Tw, Tw, Fw, Fw]))
      + popcount64 (f ([P0, P1, P2, P3, P4, P5] ++ [Tw, Tw, Fw, Tw]))
      + popcount64 (f ([P0, P1, P2, P3, P4, P5] ++ [Tw, Tw, Tw, Fw]))
      + popcount64 (f ([P0, P1, P2, P3, P4, P5] ++ [Tw, Tw, Tw, Tw]))
      = satCount 10 g
  rw [t0, t1, t2, t3, t4, t5, t6, t7, t8, t9, t10, t11, t12, t13, t14, t15, hs]
  simp only [Finset.sum_range_succ, Finset.sum_range_zero]
  omega

theorem bitArgs_length (k i : Nat) : (bitArgs k i).length = k := by
  induction k generalizing i with
  | zero => rfl
  | succ k ih => simp [bitArgs, ih]

theorem bitArgs_mem_lt (k i : Nat) : ∀ v ∈ bitArgs k i, v < 2 ^ 64 := by
  induction k generalizing i with
  | zero => intro v hv; simp [bitArgs] at hv
  | succ k ih =>
      intro v hv
      simp only [bitArgs, List.mem_cons] at hv
      rcases hv with rfl | hv
      · split <;> decide
      · exact ih (i / 2) v hv

theorem colCode_bitArgs (k i : Nat) {j : Nat} (hj : j < 64) :
    colCode (bitArgs k i) j = i % 2 ^ k := by
  induction k generalizing i with
  | zero => simp [bitArgs, colCode_nil, Nat.mod_one]
  | succ k ih =>
      rw [bitArgs, colCode_cons, ih (i / 2)]
      have hmul : i % 2 ^ (k + 1) = i % 2 + 2 * (i / 2 % 2 ^ k) := by
        rw [pow_succ, Nat.mul_comm (2 ^ k) 2, Nat.mod_mul]
      rw [hmul]
      have h0 := Nat.testBit_zero i
      cases hb : i.testBit 0
      · rw [hb] at h0
        have : i % 2 = 0 := by
          rcases Nat.mod_two_eq_zero_or_one i with h | h
          · exact h
          · simp [h] at h0
        simp [testBit_Fw, this]
      · rw [hb] at h0
        have : i % 2 = 1 := by
          rcases Nat.mod_two_eq_zero_or_one i with h | h
          · simp [h] at h0
          · exact h
        simp [testBit_Tw hj, this]

/-- Correctness of one case-splitting level of `countn`: summing the counts
of the `2 ^ k` restrictions of `g` obtained by fixing the first `k`
variables recovers the count for `g`, modulo `2 ^ 64`. -/
theorem countn_split (n k : Nat) (hkn : k + 1 ≤ n)
    (f : List Nat → Nat) (g : Nat → Bool) (hf : LiftOK n f g)
    (ih : ∀ f2 g2, LiftOK (n - k) f2 g2 →
      countn (n - k) f2 = satCount (n - k) g2 % 2 ^ 64) :
    (∑ i ∈ Finset.range (2 ^ k),
        countn (n - k) (fun vs => f (bitArgs k i ++ vs))) % 2 ^ 64
      = satCount n g % 2 ^ 64 := by
  have hlift : ∀ i : Nat, LiftOK (n - k) (fun vs => f (bitArgs k i ++ vs))
      (fun c => g (i % 2 ^ k + 2 ^ k * c)) := by
    intro i vs hvlen hvb
    have hlen : (bitArgs k i ++ vs).length = n := by
      simp [List.length_append, bitArgs_length, hvlen]
      omega
    have hb : ∀ v ∈ bitArgs k i ++ vs, v < 2 ^ 64 := by
      intro v hv
      rcases List.mem_append.mp hv with h | h
      · exact bitArgs_mem_lt k i v h
      · exact hvb v h
    have h := hf _ hlen hb
    refine ⟨h.1, fun j hj => ?_⟩
    rw [h.2 j hj, colCode_append, colCode_bitArgs k i hj, bitArgs_length]
  have hsum : ∀ i ∈ Finset.range (2 ^ k),
      countn (n - k) (fun vs => f (bitArgs k i ++ vs))
        = satCount (n - k) (fun c => g (i + 2 ^ k * c)) % 2 ^ 64 := by
    intro i hi
    rw [Finset.mem_range] at hi
    rw [ih _ _ (hlift i)]
    congr 1
    unfold satCount
    apply List.countP_congr
    intro c _
    rw [Nat.mod_eq_of_lt hi]
  rw [Finset.sum_congr rfl hsum]
  conv_lhs => rw [← Finset.sum_nat_mod]
  congr 1
  have : satCount n g = ∑ i ∈ Finset.range (2 ^ k),
      satCount (n - k) (fun c => g (i + 2 ^ k * c)) := by
    unfold satCount
    rw [show (2 : Nat) ^ n = 2 ^ k * 2 ^ (n - k) by
      rw [← pow_add]; congr 1; omega]
    exact countP_range_mul_comm (2 ^ k) (2 ^ (n - k)) g
  rw [this]

/-- Correctness of `countn` for at least one variable: it returns the
number of satisfying assignments reduced modulo `2 ^ 64`. -/
theorem countn_eq : ∀ n, 1 ≤ n → ∀ (f : List Nat → Nat) (g : Nat → Bool),
    LiftOK n f g → countn n f = satCount n g % 2 ^ 64 := by
  intro n
  induction n using Nat.strong_induction_on with
  | _ n ih =>
    intro hn f g hf
    have hlt : ∀ m, m ≤ 10 → satCount m g % 2 ^ 64 = satCount m g := by
      intro m hm
      apply Nat.mod_eq_of_lt
      calc satCount m g ≤ 2 ^ m := satCount_le m g
        _ < 2 ^ 64 := by
            apply Nat.pow_lt_pow_right (by norm_num)
            omega
    rcases n with _ | _ | _ | _ | _ | _ | _ | _ | _ | _ | _ | m
    · omega
    · rw [countn_base1 f g hf, hlt 1 (by norm_num)]
    · rw [countn_base2 f g hf, hlt 2 (by norm_num)]
    · rw [countn_base3 f g hf, hlt 3 (by norm_num)]
    · rw [countn_base4 f g hf, hlt 4 (by norm_num)]
    · rw [countn_base5 f g hf, hlt 5 (by norm_num)]
    · rw [countn_base6 f g hf, hlt 6 (by norm_num)]
    · rw [countn_base7 f g hf, hlt 7 (by norm_num)]
    · rw [countn_base8 f g hf, hlt 8 (by norm_num)]
    · rw [countn_base9 f g hf, hlt 9 (by norm_num)]
    · rw [countn_base10 f g hf, hlt 10 (by norm_num)]
    · rw [countn]
      by_cases h19 : m + 11 ≥ 19
      · rw [if_pos h19]
        have := countn_split (m + 11) 9 (by omega) f g hf
          (fun f2 g2 h2 => ih (m + 11 - 9) (by omega) (by omega) f2 g2 h2)
        simpa using this
      · rw [if_neg h19]
        have := countn_split (m + 11) 5 (by omega) f g hf
          (fun f2 g2 h2 => ih (m + 11 - 5) (by omega) (by omega) f2 g2 h2)
        simpa using this

theorem liftOK_constT (n : Nat) : LiftOK n (fun _ => Tw) (fun _ => true) := by
  intro vs hlen hb
  exact ⟨Tw_lt, fun j hj => testBit_Tw hj⟩

theorem satCount_constT (n : Nat) : satCount n (fun _ => true) = 2 ^ n := by
  unfold satCount
  simp

/-- Evaluating `countn` at 64 variables on the constant-true closure: the
`u64` accumulation wraps `2 ^ 64` around to `0`. -/
theorem countn_constT_64 : countn 64 (fun _ => Tw) = 0 := by
  rw [countn_eq 64 (by norm_num) _ _ (liftOK_constT 64), satCount_constT]
  simp

theorem liftOK_head : LiftOK 1 (fun vs => vs.headD 0) (fun c => c.testBit 0) := by
  intro vs hlen hb
  match vs, hlen with
  | [a], _ =>
    refine ⟨hb a (by simp), fun j hj => ?_⟩
    simp only [List.headD_cons, colCode_cons, colCode_nil]
    cases h : a.testBit j <;> simp [h]

/-- C1 (amended): for every `N ≥ 1` and every closure that is the bitwise
lift of a pure `N`-variable boolean function, `countn` returns the number
of satisfying truth assignments reduced modulo `2 ^ 64` (hence the exact
number whenever that count is below `2 ^ 64`). -/
theorem claim_C1 (n : Nat) (f : List Nat → Nat) (g : Nat → Bool)
    (hn : 1 ≤ n) (hf : LiftOK n f g) :
    countn n f = satCount n g % 2 ^ 64 :=
  countn_eq n hn f g hf

/-- C1 witness: the amended claim applied to the one-variable identity
formula, whose satisfying-assignment count is 1. -/
theorem claim_C1_witness :
    countn 1 (fun vs => vs.headD 0) = satCount 1 (fun c => c.testBit 0) % 2 ^ 64 :=
  claim_C1 1 (fun vs => vs.headD 0) (fun c => c.testBit 0) (by norm_num) liftOK_head

/-- C1 counterexample: at `N = 64` on the constant-true formula the code
returns `0` (the `u64` sum wraps), not the satisfying-assignment count
`2 ^ 64`, so the claim as stated fails. -/
theorem claim_C1_counterexample :
    countn 64 (fun _ => Tw) ≠ satCount 64 (fun _ => true) := by
  rw [countn_constT_64, satCount_constT]
  positivity

/-- Computes the number of path-semantical cases. The source casts the
`usize` arguments to `u32` exponents, computes `2_u64.pow`, and subtracts
`2` in `u64`; each operation wraps at its width. -/
def path1_lennm (f x : Nat) : Nat :=
  (2 ^ ((1 + f % 2 ^ 32) % 2 ^ 32) % 2 ^ 64
    + (1 + f % 2 ^ 32) * ((2 ^ (x % 2 ^ 32) % 2 ^ 64 + (2 ^ 64 - 2)) % 2 ^ 64)) % 2 ^ 64

/-- The closed-form case count stated by the specification, in exact
integer arithmetic: `L(m, n) = 2^(m+1) + (m+1) * (2^n - 2)`. -/
def path1_lennm_spec (m n : Nat) : Int := 2 ^ (m + 1) + (m + 1) * (2 ^ n - 2)

/-- C3 (amended): as long as the `u32` exponents do not truncate, the code
computes `2^(m+1) + (m+1) * (2^n - 2)` reduced modulo `2 ^ 64`; it is exact
exactly when that value fits in a `u64`. -/
theorem claim_C3 (m n : Nat) (hm : m ≤ 2 ^ 32 - 2) (hn : n ≤ 2 ^ 32 - 1) :
    (path1_lennm m n : Int) = path1_lennm_spec m n % 2 ^ 64 := by
  unfold path1_lennm path1_lennm_spec
  have hf32 : m % 2 ^ 32 = m := Nat.mod_eq_of_lt (by omega)
  have hx32 : n % 2 ^ 32 = n := Nat.mod_eq_of_lt (by omega)
  have he : (1 + m) % 2 ^ 32 = 1 + m := Nat.mod_eq_of_lt (by omega)
  rw [hf32, hx32, he]
  push_cast
  have ha : Int.ModEq (18446744073709551616)
      ((2 : Int) ^ (1 + m) % 18446744073709551616) ((2 : Int) ^ (m + 1)) := by
    rw [Nat.add_comm 1 m]
    exact Int.mod_modEq _ _
  have h2 : Int.ModEq (18446744073709551616) (18446744073709551614 : Int) (-2 : Int) := by
    show (18446744073709551614 : Int) % 18446744073709551616 = (-2) % 18446744073709551616
    norm_num
  have hb : Int.ModEq (18446744073709551616)
      (((2 : Int) ^ n % 18446744073709551616 + 18446744073709551614) % 18446744073709551616)
      ((2 : Int) ^ n - 2) := by
    refine (Int.mod_modEq _ _).trans ?_
    have h1 : Int.ModEq (18446744073709551616)
        ((2 : Int) ^ n % 18446744073709551616) ((2 : Int) ^ n) := Int.mod_modEq _ _
    simpa [sub_eq_add_neg] using h1.add h2
  have key := ha.add (hb.mul_left (1 + (m : Int)))
  have key2 : Int.ModEq (18446744073709551616)
      ((2 : Int) ^ (1 + m) % 18446744073709551616 +
        (1 + (m : Int)) *
          (((2 : Int) ^ n % 18446744073709551616 + 18446744073709551614) %
            18446744073709551616))
      ((2 : Int) ^ (m + 1) + ((m : Int) + 1) * ((2 : Int) ^ n - 2)) := by
    refine key.trans (Int.ModEq.refl _).symm |>.trans ?_
    have : (2 : Int) ^ (m + 1) + (1 + (m : Int)) * ((2 : Int) ^ n - 2)
        = (2 : Int) ^ (m + 1) + ((m : Int) + 1) * ((2 : Int) ^ n - 2) := by ring
    rw [this]
  exact key2

/-- C3 witness: the amended claim evaluated at `m = n = 1`, where
`path1_lennm 1 1 = 4 = L(1,1)`. -/
theorem claim_C3_witness : (path1_lennm 1 1 : Int) = path1_lennm_spec 1 1 % 2 ^ 64 :=
  claim_C3 1 1 (by norm_num) (by norm_num)

/-- C3 counterexample: at `m = 64`, `n = 1` the `u64` power `2^65` wraps to
`0`, so the function returns `0` while the exact value is `2^65`. -/
theorem claim_C3_counterexample : (path1_lennm 64 1 : Int) ≠ path1_lennm_spec 64 1 := by
  norm_num [path1_lennm, path1_lennm_spec]

/-- An AND relation of 3 arguments. -/
def and3 (a b c : Nat) : Nat := andW (andW a b) c

/-- An AND relation of 4 arguments. -/
def and4 (a b c d : Nat) : Nat := andW (andW a b) (andW c d)

/-- An AND relation of 5 arguments. -/
def and5 (a b c d e : Nat) : Nat := andW (andW a b) (and3 c d e)

/-- An AND relation of 6 arguments. -/
def and6 (a b c d e f : Nat) : Nat := andW (and3 a b c) (and3 d e f)

/-- An AND relation of 7 arguments. -/
def and7 (a b c d e f g : Nat) : Nat := andW (and4 a b c d) (and3 e f g)

/-- An AND relation of 8 arguments. -/
def and8 (a b c d e f g h : Nat) : Nat := andW (and4 a b c d) (and4 e f g h)

/-- An AND relation of 9 arguments. -/
def and9 (a b c d e f g h i : Nat) : Nat := andW (and5 a b c d e) (and4 f g h i)

/-- An AND relation of 10 arguments. -/
def and10 (a b c d e f g h i j : Nat) : Nat := andW (and5 a b c d e) (and5 f g h i j)

/-- An OR relation of 3 arguments. -/
def or3 (a b c : Nat) : Nat := orW (orW a b) c

/-- An OR relation of 4 arguments. -/
def or4 (a b c d : Nat) : Nat := orW (orW a b) (orW c d)

/-- An OR relation of 5 arguments. -/
def or5 (a b c d e : Nat) : Nat := orW (or3 a b c) (orW d e)

/-- An OR relation of 6 arguments. -/
def or6 (a b c d e f : Nat) : Nat := orW (or3 a b c) (or3 d e f)

/-- An OR relation of 7 arguments. -/
def or7 (a b c d e f g : Nat) : Nat := orW (or4 a b c d) (or3 e f g)

/-- An OR relation of 8 arguments. -/
def or8 (a b c d e f g h : Nat) : Nat := orW (or4 a b c d) (or4 e f g h)

/-- An OR relation of 9 arguments. -/
def or9 (a b c d e f g h i : Nat) : Nat := orW (or5 a b c d e) (or4 f g h i)

/-- An OR relation of 10 arguments. -/
def or10 (a b c d e f g h i j : Nat) : Nat := orW (or5 a b c d e) (or5 f g h i j)

/-- An OR relation of a variable number of arguments. -/
def orn : List Nat → Nat
  | [] => Fw
  | [a] => a
  | [a, b] => orW a b
  | [a, b, c] => or3 a b c
  | [a, b, c, d] => or4 a b c d
  | [a, b, c, d, e] => or5 a b c d e
  | [a, b, c, d, e, f] => or6 a b c d e f
  | [a, b, c, d, e, f, g] => or7 a b c d e f g
  | [a, b, c, d, e, f, g, h] => or8 a b c d e f g h
  | [a, b, c, d, e, f, g, h, i] => or9 a b c d e f g h i
  | [a, b, c, d, e, f, g, h, i, j] => or10 a b c d e f g h i j
  | v0 :: v1 :: v2 :: v3 :: v4 :: v5 :: v6 :: v7 :: v8 :: v9 :: v10 :: rest =>
      orW (orn ((v0 :: v1 :: v2 :: v3 :: v4 :: v5 :: v6 :: v7 :: v8 :: v9 :: v10 :: rest).take 10))
        (orn ((v0 :: v1 :: v2 :: v3 :: v4 :: v5 :: v6 :: v7 :: v8 :: v9 :: v10 :: rest).drop 10))
  termination_by vs => vs.length
  decreasing_by all_goals simp [List.length_take, List.length_drop]

/-- An XOR ("exactly one true") relation of 3 arguments. -/
def xor3 (a b c : Nat) : Nat :=
  orW (andW (xorW a b) (notW c)) (notW (or3 a b (notW c)))

/-- An XOR relation of 4 arguments. -/
def xor4 (a b c d : Nat) : Nat :=
  orW (andW (xor3 a b c) (notW d)) (notW (or4 a b c (notW d)))

/-- An XOR relation of 5 arguments. -/
def xor5 (a b c d e : Nat) : Nat :=
  orW (andW (xor4 a b c d) (notW e)) (notW (or5 a b c d (notW e)))

/-- An XOR relation of 6 arguments. -/
def xor6 (a b c d e f : Nat) : Nat :=
  orW (andW (xor5 a b c d e) (notW f)) (notW (or6 a b c d e (notW f)))

/-- An XOR relation of 7 arguments. -/
def xor7 (a b c d e f g : Nat) : Nat :=
  orW (andW (xor6 a b c d e f) (notW g)) (notW (or7 a b c d e f (notW g)))

/-- An XOR relation of 8 arguments. -/
def xor8 (a b c d e f g h : Nat) : Nat :=
  orW (andW (xor7 a b c d e f g) (notW h)) (notW (or8 a b c d e f g (notW h)))

/-- An XOR relation of 9 arguments. -/
def xor9 (a b c d e f g h i : Nat) : Nat :=
  orW (andW (xor8 a b c d e f g h) (notW i)) (notW (or9 a b c d e f g h (notW i)))

/-- An XOR relation of 10 arguments. -/
def xor10 (a b c d e f g h i j : Nat) : Nat :=
  orW (andW (xor9 a b c d e f g h i) (notW j)) (notW (or10 a b c d e f g h i (notW j)))

/-- An XOR relation of a variable number of arguments. -/
def xorn : List Nat → Nat
  | [] => Fw
  | [a] => a
  | [a, b] => xorW a b
  | [a, b, c] => xor3 a b c
  | [a, b, c, d] => xor4 a b c d
  | [a, b, c, d, e] => xor5 a b c d e
  | [a, b, c, d, e, f] => xor6 a b c d e f
  | [a, b, c, d, e, f, g] => xor7 a b c d e f g
  | [a, b, c, d, e, f, g, h] => xor8 a b c d e f g h
  | [a, b, c, d, e, f, g, h, i] => xor9 a b c d e f g h i
  | [a, b, c, d, e, f, g, h, i, j] => xor10 a b c d e f g h i j
  | v0 :: v1 :: v2 :: v3 :: v4 :: v5 :: v6 :: v7 :: v8 :: v9 :: v10 :: rest =>
      let vs := v0 :: v1 :: v2 :: v3 :: v4 :: v5 :: v6 :: v7 :: v8 :: v9 :: v10 :: rest
      orW (andW (xorn vs.dropLast) (notW (vs.getD (vs.length - 1) 0)))
        (notW (orW (orn vs.dropLast) (notW (vs.getD (vs.length - 1) 0))))
  termination_by vs => vs.length
  decreasing_by simp [List.length_dropLast]

/-- An IMPLY chain of 3 arguments. -/
def imply3 (a b c : Nat) : Nat := andW (implyW a b) (implyW b c)

/-- An IMPLY chain of 4 arguments. -/
def imply4 (a b c d : Nat) : Nat := and3 (implyW a b) (implyW b c) (implyW c d)

/-- An IMPLY chain of 5 arguments. -/
def imply5 (a b c d e : Nat) : Nat :=
  and4 (implyW a b) (implyW b c) (implyW c d) (implyW d e)

/-- An IMPLY chain of 6 arguments. -/
def imply6 (a b c d e f : Nat) : Nat :=
  and5 (implyW a b) (implyW b c) (implyW c d) (implyW d e) (implyW e f)

/-- An IMPLY chain of 7 arguments. -/
def imply7 (a b c d e f g : Nat) : Nat :=
  and6 (implyW a b) (implyW b c) (implyW c d) (implyW d e) (implyW e f) (implyW f g)

/-- An IMPLY chain of 8 arguments. -/
def imply8 (a b c d e f g h : Nat) : Nat :=
  and7 (implyW a b) (implyW b c) (implyW c d) (implyW d e) (implyW e f) (implyW f g)
    (implyW g h)

/-- An IMPLY chain of 9 arguments. -/
def imply9 (a b c d e f g h i : Nat) : Nat :=
  and8 (implyW a b) (implyW b c) (implyW c d) (implyW d e) (implyW e f) (implyW f g)
    (implyW g h) (implyW h i)

/-- An IMPLY chain of 10 arguments. -/
def imply10 (a b c d e f g h i j : Nat) : Nat :=
  and9 (implyW a b) (implyW b c) (implyW c d) (implyW d e) (implyW e f) (implyW f g)
    (implyW g h) (implyW h i) (implyW i j)

/-- An IMPLY chain of a variable number of arguments. -/
def implyn : List Nat → Nat
  | [] => Tw
  | [a] => a
  | [a, b] => implyW a b
  | [a, b, c] => imply3 a b c
  | [a, b, c, d] => imply4 a b c d
  | [a, b, c, d, e] => imply5 a b c d e
  | [a, b, c, d, e, f] => imply6 a b c d e f
  | [a, b, c, d, e, f, g] => imply7 a b c d e f g
  | [a, b, c, d, e, f, g, h] => imply8 a b c d e f g h
  | [a, b, c, d, e, f, g, h, i] => imply9 a b c d e f g h i
  | [a, b, c, d, e, f, g, h, i, j] => imply10 a b c d e f g h i j
  | v0 :: v1 :: v2 :: v3 :: v4 :: v5 :: v6 :: v7 :: v8 :: v9 :: v10 :: rest =>
      let vs := v0 :: v1 :: v2 :: v3 :: v4 :: v5 :: v6 :: v7 :: v8 :: v9 :: v10 :: rest
      andW (implyn vs.dropLast)
        (implyW (vs.getD (vs.length - 2) 0) (vs.getD (vs.length - 1) 0))
  termination_by vs => vs.length
  decreasing_by simp [List.length_dropLast]

theorem andW_Tw {x : Nat} (hx : x < 2 ^ 64) : andW x Tw = x := by
  rw [andW, Tw_eq, Nat.and_pow_two_sub_one_eq_mod]
  exact Nat.mod_eq_of_lt hx

theorem getD_mem_of_lt (l : List Nat) (i : Nat) (h : i < l.length) : l.getD i 0 ∈ l := by
  rw [List.getD_eq_getElem l 0 h]
  exact List.getElem_mem h

/-- Right fold of bitwise AND with unit `T`. -/
def bigAnd (l : List Nat) : Nat := l.foldr andW Tw

/-- The list of consecutive implications of a word list. -/
def implyPairs (vs : List Nat) : List Nat := List.zipWith implyW vs vs.tail

/-- The conjunction of the consecutive implications `v_i -> v_{i+1}` of a
word list, with the empty conjunction equal to `T`; this is the reading of
`implyn` given by the specification. -/
def chainImplyW (vs : List Nat) : Nat := bigAnd (implyPairs vs)

theorem bigAnd_lt (l : List Nat) : bigAnd l < 2 ^ 64 := by
  induction l with
  | nil => exact Tw_lt
  | cons a l ih => exact lt_of_le_of_lt Nat.and_le_right ih

theorem foldr_andW (l : List Nat) (x : Nat) (hx : x < 2 ^ 64) :
    l.foldr andW x = andW (bigAnd l) x := by
  induction l with
  | nil =>
      show x = andW Tw x
      rw [andW, Nat.land_comm, ← andW, andW_Tw hx]
  | cons a l ih =>
      show andW a (l.foldr andW x) = andW (andW a (bigAnd l)) x
      rw [ih, andW, andW, andW, andW, Nat.land_assoc]

theorem bigAnd_append (l1 l2 : List Nat) :
    bigAnd (l1 ++ l2) = andW (bigAnd l1) (bigAnd l2) := by
  rw [bigAnd, List.foldr_append]
  exact foldr_andW l1 _ (bigAnd_lt l2)

theorem implyPairs_concat (a b : Nat) (t : List Nat) :
    implyPairs (a :: b :: t)
      = implyPairs ((a :: b :: t).dropLast)
        ++ [implyW ((a :: b :: t).getD ((a :: b :: t).length - 2) 0)
              ((a :: b :: t).getD ((a :: b :: t).length - 1) 0)] := by
  induction t generalizing a b with
  | nil => rfl
  | cons c t ih =>
      have e1 : implyPairs (a :: b :: c :: t) = implyW a b :: implyPairs (b :: c :: t) := rfl
      have e2 : (a :: b :: c :: t).dropLast = a :: b :: (c :: t).dropLast := rfl
      have e4 : implyPairs (a :: b :: (c :: t).dropLast)
          = implyW a b :: implyPairs (b :: (c :: t).dropLast) := rfl
      rw [e1, ih b c, e2, e4]
      have e5 : (b :: c :: t).dropLast = b :: (c :: t).dropLast := rfl
      rw [e5]
      simp only [List.cons_append, List.cons.injEq, true_and]
      have l1 : (a :: b :: c :: t).length - 2 = ((b :: c :: t).length - 2) + 1 := by
        simp only [List.length_cons]
        omega
      have l2 : (a :: b :: c :: t).length - 1 = ((b :: c :: t).length - 1) + 1 := by
        simp only [List.length_cons]
        omega
      rw [l1, l2, List.getD_cons_succ, List.getD_cons_succ]

/-- Splitting the chained conjunction at the last pair. -/
theorem chainImplyW_step (w : List Nat) (hw : 2 <= w.length)
    (hb : forall v, v ∈ w -> v < 2 ^ 64) :
    chainImplyW w
      = andW (chainImplyW w.dropLast)
          (implyW (w.getD (w.length - 2) 0) (w.getD (w.length - 1) 0)) := by
  match w, hw with
  | a :: b :: t, _ =>
    have hp : implyW ((a :: b :: t).getD ((a :: b :: t).length - 2) 0)
        ((a :: b :: t).getD ((a :: b :: t).length - 1) 0) < 2 ^ 64 := by
      apply implyW_lt <;>
      · apply hb
        apply getD_mem_of_lt
        simp only [List.length_cons]
        omega
    rw [chainImplyW, implyPairs_concat a b t, bigAnd_append, chainImplyW]
    congr 1
    show andW _ Tw = _
    rw [andW_Tw hp]

theorem implyn_chain_aux : ∀ n (vs : List Nat), vs.length = n →
    (∀ v ∈ vs, v < 2 ^ 64) → n ≠ 1 → implyn vs = chainImplyW vs := by
  intro n
  induction n using Nat.strong_induction_on with
  | _ n ih =>
    intro vs hlen
    match n, vs, hlen with
    | 0, [], _ =>
        intro hb hn1
        rw [show implyn [] = Tw by simp [implyn]]
        rfl
    | 1, [a], _ =>
        intro hb hn1
        exact absurd rfl hn1
    | 2, [a, b], _ =>
        intro hb hn1
        have hlast : implyW a b < 2 ^ 64 :=
          implyW_lt (hb a (by simp)) (hb b (by simp))
        rw [show implyn [a, b] = implyW a b by simp [implyn]]
        show implyW a b = andW (implyW a b) Tw
        rw [andW_Tw hlast]
    | 3, [a, b, c], _ =>
        intro hb hn1
        have hlast : implyW b c < 2 ^ 64 :=
          implyW_lt (hb b (by simp)) (hb c (by simp))
        rw [show implyn [a, b, c] = imply3 a b c by simp [implyn]]
        show imply3 a b c = andW (implyW a b) (andW (implyW b c) (Tw))
        rw [andW_Tw hlast]
        rfl
    | 4, [a, b, c, d], _ =>
        intro hb hn1
        have hlast : implyW c d < 2 ^ 64 :=
          implyW_lt (hb c (by simp)) (hb d (by simp))
        rw [show implyn [a, b, c, d] = imply4 a b c d by simp [implyn]]
        show imply4 a b c d = andW (implyW a b) (andW (implyW b c) (andW (implyW c d) (Tw)))
        rw [andW_Tw hlast]
        all_goals (simp only [imply4, imply3, and3, and4, and5, and6, and7, and8, and9, andW]; ac_rfl)
    | 5, [a, b, c, d, e], _ =>
        intro hb hn1
        have hlast : implyW d e < 2 ^ 64 :=
          implyW_lt (hb d (by simp)) (hb e (by simp))
        rw [show implyn [a, b, c, d, e] = imply5 a b c d e by simp [implyn]]
        show imply5 a b c d e = andW (implyW a b) (andW (implyW b c) (andW (implyW c d) (andW (implyW d e) (Tw))))
        rw [andW_Tw hlast]
        all_goals (simp only [imply5, imply3, and3, and4, and5, and6, and7, and8, and9, andW]; ac_rfl)
    | 6, [a, b, c, d, e, f], _ =>
        intro hb hn1
        have hlast : implyW e f < 2 ^ 64 :=
          implyW_lt (hb e (by simp)) (hb f (by simp))
        rw [show implyn [a, b, c, d, e, f] = imply6 a b c d e f by simp [implyn]]
        show imply6 a b c d e f = andW (implyW a b) (andW (implyW b c) (andW (implyW c d) (andW (implyW d e) (andW (implyW e f) (Tw)))))
        rw [andW_Tw hlast]
        all_goals (simp only [imply6, imply3, and3, and4, and5, and6, and7, and8, and9, andW]; ac_rfl)
    | 7, [a, b, c, d, e, f, g], _ =>
        intro hb hn1
        have hlast : implyW f g < 2 ^ 64 :=
          implyW_lt (hb f (by simp)) (hb g (by simp))
        rw [show implyn [a, b, c, d, e, f, g] = imply7 a b c d e f g by simp [implyn]]
        show imply7 a b c d e f g = andW (implyW a b) (andW (implyW b c) (andW (implyW c d) (andW (implyW d e) (andW (implyW e f) (andW (implyW f g) (Tw))))))
        rw [andW_Tw hlast]
        all_goals (simp only [imply7, imply3, and3, and4, and5, and6, and7, and8, and9, andW]; ac_rfl)
    | 8, [a, b, c, d, e, f, g, h], _ =>
        intro hb hn1
        have hlast : implyW g h < 2 ^ 64 :=
          implyW_lt (hb g (by simp)) (hb h (by simp))
        rw [show implyn [a, b, c, d, e, f, g, h] = imply8 a b c d e f g h by simp [implyn]]
        show imply8 a b c d e f g h = andW (implyW a b) (andW (implyW b c) (andW (implyW c d) (andW (implyW d e) (andW (implyW e f) (andW (implyW f g) (andW (implyW g h) (Tw)))))))
        rw [andW_Tw hlast]
        all_goals (simp only [imply8, imply3, and3, and4, and5, and6, and7, and8, and9, andW]; ac_rfl)
    | 9, [a, b, c, d, e, f, g, h, i], _ =>
        intro hb hn1
        have hlast : implyW h i < 2 ^ 64 :=
          implyW_lt (hb h (by simp)) (hb i (by simp))
        rw [show implyn [a, b, c, d, e, f, g, h, i] = imply9 a b c d e f g h i by simp [implyn]]
        show imply9 a b c d e f g h i = andW (implyW a b) (andW (implyW b c) (andW (implyW c d) (andW (implyW d e) (andW (implyW e f) (andW (implyW f g) (andW (implyW g h) (andW (implyW h i) (Tw))))))))
        rw [andW_Tw hlast]
        all_goals (simp only [imply9, imply3, and3, and4, and5, and6, and7, and8, and9, andW]; ac_rfl)
    | 10, [a, b, c, d, e, f, g, h, i, j], _ =>
        intro hb hn1
        have hlast : implyW i j < 2 ^ 64 :=
          implyW_lt (hb i (by simp)) (hb j (by simp))
        rw [show implyn [a, b, c, d, e, f, g, h, i, j] = imply10 a b c d e f g h i j by simp [implyn]]
        show imply10 a b c d e f g h i j = andW (implyW a b) (andW (implyW b c) (andW (implyW c d) (andW (implyW d e) (andW (implyW e f) (andW (implyW f g) (andW (implyW g h) (andW (implyW h i) (andW (implyW i j) (Tw)))))))))
        rw [andW_Tw hlast]
        all_goals (simp only [imply10, imply3, and3, and4, and5, and6, and7, and8, and9, andW]; ac_rfl)
    | (x + 11), v0 :: v1 :: v2 :: v3 :: v4 :: v5 :: v6 :: v7 :: v8 :: v9 :: v10 :: rest, hl =>
        intro hb hn1
        have hdl : (v0 :: v1 :: v2 :: v3 :: v4 :: v5 :: v6 :: v7 :: v8 :: v9 :: v10 :: rest).dropLast.length = x + 10 := by
          simp only [List.length_cons] at hl
          simp only [List.length_dropLast, List.length_cons]
          omega
        have ihW := ih (x + 10) (by omega) (v0 :: v1 :: v2 :: v3 :: v4 :: v5 :: v6 :: v7 :: v8 :: v9 :: v10 :: rest).dropLast hdl
          (fun v hv => hb v (List.dropLast_subset _ hv)) (by omega)
        rw [show implyn (v0 :: v1 :: v2 :: v3 :: v4 :: v5 :: v6 :: v7 :: v8 :: v9 :: v10 :: rest)
            = andW (implyn (v0 :: v1 :: v2 :: v3 :: v4 :: v5 :: v6 :: v7 :: v8 :: v9 :: v10 :: rest).dropLast)
                (implyW ((v0 :: v1 :: v2 :: v3 :: v4 :: v5 :: v6 :: v7 :: v8 :: v9 :: v10 :: rest).getD ((v0 :: v1 :: v2 :: v3 :: v4 :: v5 :: v6 :: v7 :: v8 :: v9 :: v10 :: rest).length - 2) 0)
                  ((v0 :: v1 :: v2 :: v3 :: v4 :: v5 :: v6 :: v7 :: v8 :: v9 :: v10 :: rest).getD ((v0 :: v1 :: v2 :: v3 :: v4 :: v5 :: v6 :: v7 :: v8 :: v9 :: v10 :: rest).length - 1) 0)) by simp [implyn]]
        rw [ihW, ← chainImplyW_step (v0 :: v1 :: v2 :: v3 :: v4 :: v5 :: v6 :: v7 :: v8 :: v9 :: v10 :: rest) (by simp) hb]

/-- C5 (amended): for every slice of 64-bit words of length other than 1,
`implyn(vs)` is the bitwise AND of the consecutive implications
`imply(vs[i], vs[i+1])`, with the empty conjunction equal to `T`; for a
one-element slice the code instead returns that element. -/
theorem claim_C5 (vs : List Nat) (hb : forall v, v ∈ vs -> v < 2 ^ 64)
    (h1 : vs.length ≠ 1) : implyn vs = chainImplyW vs :=
  implyn_chain_aux vs.length vs rfl hb h1

/-- C5 witness: the amended claim evaluated on a two-element slice. -/
theorem claim_C5_witness : implyn [Fw, Tw] = chainImplyW [Fw, Tw] :=
  claim_C5 [Fw, Tw] (by decide) (by decide)

/-- C5 counterexample: on the one-element slice `[F]` the code returns the
element `F = 0`, not the empty conjunction `T`, refuting the claim that a
slice with no consecutive pair always yields `T`. -/
theorem claim_C5_counterexample : implyn [Fw] ≠ chainImplyW [Fw] := by
  rw [show implyn [Fw] = Fw by simp [implyn]]
  show Fw ≠ Tw
  decide

theorem exactlyOne_snoc (front : List Nat) (l : Nat) (p : Nat → Bool) :
    ((front ++ [l]).countP p == 1)
      = (((front.countP p == 1) && !(p l)) || !(front.any p || !(p l))) := by
  rw [List.countP_append]
  have hany : front.any p = decide (0 < front.countP p) := by
    by_cases h : ∃ x ∈ front, p x
    · rw [List.any_eq_true.mpr h]
      simp [List.countP_pos_iff.mpr h]
    · rw [List.any_eq_false.mpr (by simpa using h)]
      have : front.countP p = 0 := List.countP_eq_zero.mpr (by simpa using h)
      simp [this]
  rw [hany]
  cases hl : p l
  · simp [hl, List.countP_cons]
  · simp only [hl, List.countP_cons, List.countP_nil, Bool.not_true, Bool.and_false,
      Bool.or_false, Bool.false_or, if_pos, if_true]
    rcases Nat.eq_zero_or_pos (front.countP p) with hc | hc
    · simp [hc]
    · have hb1 : (front.countP p + (0 + 1) == 1) = false :=
        beq_eq_false_iff_ne.mpr (by omega)
      have hb2 : (!decide (0 < front.countP p)) = false := by
        simp [hc]
      rw [hb1, hb2]

theorem testBit_or3 (a b c jb : Nat) :
    (or3 a b c).testBit jb = [a, b, c].any (fun v => v.testBit jb) := by
  simp [or3, or3, or4, or5, orW, Nat.testBit_or, Bool.or_assoc]

theorem testBit_or4 (a b c d jb : Nat) :
    (or4 a b c d).testBit jb = [a, b, c, d].any (fun v => v.testBit jb) := by
  simp [or4, or3, or4, or5, orW, Nat.testBit_or, Bool.or_assoc]

theorem testBit_or5 (a b c d e jb : Nat) :
    (or5 a b c d e).testBit jb = [a, b, c, d, e].any (fun v => v.testBit jb) := by
  simp [or5, or3, or4, or5, orW, Nat.testBit_or, Bool.or_assoc]

theorem testBit_or6 (a b c d e f jb : Nat) :
    (or6 a b c d e f).testBit jb = [a, b, c, d, e, f].any (fun v => v.testBit jb) := by
  simp [or6, or3, or4, or5, orW, Nat.testBit_or, Bool.or_assoc]

theorem testBit_or7 (a b c d e f g jb : Nat) :
    (or7 a b c d e f g).testBit jb = [a, b, c, d, e, f, g].any (fun v => v.testBit jb) := by
  simp [or7, or3, or4, or5, orW, Nat.testBit_or, Bool.or_assoc]

theorem testBit_or8 (a b c d e f g h jb : Nat) :
    (or8 a b c d e f g h).testBit jb = [a, b, c, d, e, f, g, h].any (fun v => v.testBit jb) := by
  simp [or8, or3, or4, or5, orW, Nat.testBit_or, Bool.or_assoc]

theorem testBit_or9 (a b c d e f g h i jb : Nat) :
    (or9 a b c d e f g h i).testBit jb = [a, b, c, d, e, f, g, h, i].any (fun v => v.testBit jb) := by
  simp [or9, or3, or4, or5, orW, Nat.testBit_or, Bool.or_assoc]

theorem testBit_or10 (a b c d e f g h i j jb : Nat) :
    (or10 a b c d e f g h i j).testBit jb = [a, b, c, d, e, f, g, h, i, j].any (fun v => v.testBit jb) := by
  simp [or10, or3, or4, or5, orW, Nat.testBit_or, Bool.or_assoc]

theorem testBit_orn_aux : ∀ n (vs : List Nat), vs.length = n → ∀ jx : Nat,
    (orn vs).testBit jx = vs.any (fun v => v.testBit jx) := by
  intro n
  induction n using Nat.strong_induction_on with
  | _ n ih =>
    intro vs hlen jb
    match n, vs, hlen with
    | 0, [], _ => simp [orn, testBit_Fw]
    | 1, [a], _ =>
        rw [show orn [a] = a by simp [orn]]
        simp
    | 2, [a, b], _ =>
        rw [show orn [a, b] = orW a b by simp [orn]]
        simp [testBit_orW]
    | 3, [a, b, c], _ =>
        rw [show orn [a, b, c] = or3 a b c by simp [orn]]
        exact testBit_or3 a b c jb
    | 4, [a, b, c, d], _ =>
        rw [show orn [a, b, c, d] = or4 a b c d by simp [orn]]
        exact testBit_or4 a b c d jb
    | 5, [a, b, c, d, e], _ =>
        rw [show orn [a, b, c, d, e] = or5 a b c d e by simp [orn]]
        exact testBit_or5 a b c d e jb
    | 6, [a, b, c, d, e, f], _ =>
        rw [show orn [a, b, c, d, e, f] = or6 a b c d e f by simp [orn]]
        exact testBit_or6 a b c d e f jb
    | 7, [a, b, c, d, e, f, g], _ =>
        rw [show orn [a, b, c, d, e, f, g] = or7 a b c d e f g by simp [orn]]
        exact testBit_or7 a b c d e f g jb
    | 8, [a, b, c, d, e, f, g, h], _ =>
        rw [show orn [a, b, c, d, e, f, g, h] = or8 a b c d e f g h by simp [orn]]
        exact testBit_or8 a b c d e f g h jb
    | 9, [a, b, c, d, e, f, g, h, i], _ =>
        rw [show orn [a, b, c, d, e, f, g, h, i] = or9 a b c d e f g h i by simp [orn]]
        exact testBit_or9 a b c d e f g h i jb
    | 10, [a, b, c, d, e, f, g, h, i, j], _ =>
        rw [show orn [a, b, c, d, e, f, g, h, i, j] = or10 a b c d e f g h i j by simp [orn]]
        exact testBit_or10 a b c d e f g h i j jb
    | (x + 11), v0 :: v1 :: v2 :: v3 :: v4 :: v5 :: v6 :: v7 :: v8 :: v9 :: v10 :: rest, hl =>
        rw [show orn (v0 :: v1 :: v2 :: v3 :: v4 :: v5 :: v6 :: v7 :: v8 :: v9 :: v10 :: rest)
            = orW (orn ((v0 :: v1 :: v2 :: v3 :: v4 :: v5 :: v6 :: v7 :: v8 :: v9 :: v10 :: rest).take 10)) (orn ((v0 :: v1 :: v2 :: v3 :: v4 :: v5 :: v6 :: v7 :: v8 :: v9 :: v10 :: rest).drop 10)) by simp [orn]]
        rw [testBit_orW]
        have hx : rest.length = x := by
          simp only [List.length_cons] at hl
          omega
        have h1 := ih 10 (by omega) ((v0 :: v1 :: v2 :: v3 :: v4 :: v5 :: v6 :: v7 :: v8 :: v9 :: v10 :: rest).take 10)
          (by simp only [List.length_take, List.length_cons]; omega) jb
        have h2 := ih (rest.length + 1) (by omega) ((v0 :: v1 :: v2 :: v3 :: v4 :: v5 :: v6 :: v7 :: v8 :: v9 :: v10 :: rest).drop 10)
          (by simp only [List.length_drop, List.length_cons]; omega) jb
        rw [h1, h2, ← List.any_append, List.take_append_drop]

theorem testBit_orn (vs : List Nat) (j : Nat) :
    (orn vs).testBit j = vs.any (fun v => v.testBit j) :=
  testBit_orn_aux vs.length vs rfl j

theorem xor_eq_exactlyOne2 (a b : Nat) (jb : Nat) :
    (a.testBit jb ^^ b.testBit jb) = ([a, b].countP (fun v => v.testBit jb) == 1) := by
  cases ha : a.testBit jb <;> cases hb2 : b.testBit jb <;>
    simp [List.countP_cons, ha, hb2]

theorem dropLast_append_getD (w : List Nat) (hw : w ≠ []) :
    w.dropLast ++ [w.getD (w.length - 1) 0] = w := by
  have hlt : w.length - 1 < w.length := by
    cases w
    · simp at hw
    · simp
  have h1 : w.getD (w.length - 1) 0 = w.getLast hw := by
    rw [List.getD_eq_getElem _ _ hlt, List.getLast_eq_getElem]
  rw [h1, List.dropLast_append_getLast hw]

theorem testBit_xor3 (a b c : Nat) {jb : Nat} (hj : jb < 64) :
    (xor3 a b c).testBit jb = ([a, b, c].countP (fun v => v.testBit jb) == 1) := by
  have hsnoc := exactlyOne_snoc [a, b] c (fun v => v.testBit jb)
  rw [show ([a, b] ++ [c] : List Nat) = [a, b, c] from rfl] at hsnoc
  rw [hsnoc]
  simp only [xor3, testBit_orW, testBit_andW, testBit_notW hj, testBit_xorW, testBit_or3]
  rw [xor_eq_exactlyOne2 a b jb]
  simp [List.any_cons, List.any_nil, testBit_notW hj, Bool.or_assoc, Bool.or_false]

theorem testBit_xor4 (a b c d : Nat) {jb : Nat} (hj : jb < 64) :
    (xor4 a b c d).testBit jb = ([a, b, c, d].countP (fun v => v.testBit jb) == 1) := by
  have hsnoc := exactlyOne_snoc [a, b, c] d (fun v => v.testBit jb)
  rw [show ([a, b, c] ++ [d] : List Nat) = [a, b, c, d] from rfl] at hsnoc
  rw [hsnoc]
  simp only [xor4, testBit_orW, testBit_andW, testBit_notW hj, testBit_or4]
  rw [testBit_xor3 a b c hj]
  simp [List.any_cons, List.any_nil, testBit_notW hj, Bool.or_assoc, Bool.or_false]

theorem testBit_xor5 (a b c d e : Nat) {jb : Nat} (hj : jb < 64) :
    (xor5 a b c d e).testBit jb = ([a, b, c, d, e].countP (fun v => v.testBit jb) == 1) := by
  have hsnoc := exactlyOne_snoc [a, b, c, d] e (fun v => v.testBit jb)
  rw [show ([a, b, c, d] ++ [e] : List Nat) = [a, b, c, d, e] from rfl] at hsnoc
  rw [hsnoc]
  simp only [xor5, testBit_orW, testBit_andW, testBit_notW hj, testBit_or5]
  rw [testBit_xor4 a b c d hj]
  simp [List.any_cons, List.any_nil, testBit_notW hj, Bool.or_assoc, Bool.or_false]

theorem testBit_xor6 (a b c d e f : Nat) {jb : Nat} (hj : jb < 64) :
    (xor6 a b c d e f).testBit jb = ([a, b, c, d, e, f].countP (fun v => v.testBit jb) == 1) := by
  have hsnoc := exactlyOne_snoc [a, b, c, d, e] f (fun v => v.testBit jb)
  rw [show ([a, b, c, d, e] ++ [f] : List Nat) = [a, b, c, d, e, f] from rfl] at hsnoc
  rw [hsnoc]
  simp only [xor6, testBit_orW, testBit_andW, testBit_notW hj, testBit_or6]
  rw [testBit_xor5 a b c d e hj]
  simp [List.any_cons, List.any_nil, testBit_notW hj, Bool.or_assoc, Bool.or_false]

theorem testBit_xor7 (a b c d e f g : Nat) {jb : Nat} (hj : jb < 64) :
    (xor7 a b c d e f g).testBit jb = ([a, b, c, d, e, f, g].countP (fun v => v.testBit jb) == 1) := by
  have hsnoc := exactlyOne_snoc [a, b, c, d, e, f] g (fun v => v.testBit jb)
  rw [show ([a, b, c, d, e, f] ++ [g] : List Nat) = [a, b, c, d, e, f, g] from rfl] at hsnoc
  rw [hsnoc]
  simp only [xor7, testBit_orW, testBit_andW, testBit_notW hj, testBit_or7]
  rw [testBit_xor6 a b c d e f hj]
  simp [List.any_cons, List.any_nil, testBit_notW hj, Bool.or_assoc, Bool.or_false]

theorem testBit_xor8 (a b c d e f g h : Nat) {jb : Nat} (hj : jb < 64) :
    (xor8 a b c d e f g h).testBit jb = ([a, b, c, d, e, f, g, h].countP (fun v => v.testBit jb) == 1) := by
  have hsnoc := exactlyOne_snoc [a, b, c, d, e, f, g] h (fun v => v.testBit jb)
  rw [show ([a, b, c, d, e, f, g] ++ [h] : List Nat) = [a, b, c, d, e, f, g, h] from rfl] at hsnoc
  rw [hsnoc]
  simp only [xor8, testBit_orW, testBit_andW, testBit_notW hj, testBit_or8]
  rw [testBit_xor7 a b c d e f g hj]
  simp [List.any_cons, List.any_nil, testBit_notW hj, Bool.or_assoc, Bool.or_false]

theorem testBit_xor9 (a b c d e f g h i : Nat) {jb : Nat} (hj : jb < 64) :
    (xor9 a b c d e f g h i).testBit jb = ([a, b, c, d, e, f, g, h, i].countP (fun v => v.testBit jb) == 1) := by
  have hsnoc := exactlyOne_snoc [a, b, c, d, e, f, g, h] i (fun v => v.testBit jb)
  rw [show ([a, b, c, d, e, f, g, h] ++ [i] : List Nat) = [a, b, c, d, e, f, g, h, i] from rfl] at hsnoc
  rw [hsnoc]
  simp only [xor9, testBit_orW, testBit_andW, testBit_notW hj, testBit_or9]
  rw [testBit_xor8 a b c d e f g h hj]
  simp [List.any_cons, List.any_nil, testBit_notW hj, Bool.or_assoc, Bool.or_false]

theorem testBit_xor10 (a b c d e f g h i j : Nat) {jb : Nat} (hj : jb < 64) :
    (xor10 a b c d e f g h i j).testBit jb = ([a, b, c, d, e, f, g, h, i, j].countP (fun v => v.testBit jb) == 1) := by
  have hsnoc := exactlyOne_snoc [a, b, c, d, e, f, g, h, i] j (fun v => v.testBit jb)
  rw [show ([a, b, c, d, e, f, g, h, i] ++ [j] : List Nat) = [a, b, c, d, e, f, g, h, i, j] from rfl] at hsnoc
  rw [hsnoc]
  simp only [xor10, testBit_orW, testBit_andW, testBit_notW hj, testBit_or10]
  rw [testBit_xor9 a b c d e f g h i hj]
  simp [List.any_cons, List.any_nil, testBit_notW hj, Bool.or_assoc, Bool.or_false]

theorem testBit_xorn_aux : ∀ n (vs : List Nat), vs.length = n → ∀ {jb : Nat}, jb < 64 →
    (xorn vs).testBit jb = (vs.countP (fun v => v.testBit jb) == 1) := by
  intro n
  induction n using Nat.strong_induction_on with
  | _ n ih =>
    intro vs hlen jb hj
    match n, vs, hlen with
    | 0, [], _ => simp [xorn, testBit_Fw]
    | 1, [a], _ =>
        rw [show xorn [a] = a by simp [xorn]]
        cases ha : a.testBit jb <;> simp [List.countP_cons, ha]
    | 2, [a, b], _ =>
        rw [show xorn [a, b] = xorW a b by simp [xorn]]
        rw [testBit_xorW]
        exact xor_eq_exactlyOne2 a b jb
    | 3, [a, b, c], _ =>
        rw [show xorn [a, b, c] = xor3 a b c by simp [xorn]]
        exact testBit_xor3 a b c hj
    | 4, [a, b, c, d], _ =>
        rw [show xorn [a, b, c, d] = xor4 a b c d by simp [xorn]]
        exact testBit_xor4 a b c d hj
    | 5, [a, b, c, d, e], _ =>
        rw [show xorn [a, b, c, d, e] = xor5 a b c d e by simp [xorn]]
        exact testBit_xor5 a b c d e hj
    | 6, [a, b, c, d, e, f], _ =>
        rw [show xorn [a, b, c, d, e, f] = xor6 a b c d e f by simp [xorn]]
        exact testBit_xor6 a b c d e f hj
    | 7, [a, b, c, d, e, f, g], _ =>
        rw [show xorn [a, b, c, d, e, f, g] = xor7 a b c d e f g by simp [xorn]]
        exact testBit_xor7 a b c d e f g hj
    | 8, [a, b, c, d, e, f, g, h], _ =>
        rw [show xorn [a, b, c, d, e, f, g, h] = xor8 a b c d e f g h by simp [xorn]]
        exact testBit_xor8 a b c d e f g h hj
    | 9, [a, b, c, d, e, f, g, h, i], _ =>
        rw [show xorn [a, b, c, d, e, f, g, h, i] = xor9 a b c d e f g h i by simp [xorn]]
        exact testBit_xor9 a b c d e f g h i hj
    | 10, [a, b, c, d, e, f, g, h, i, j], _ =>
        rw [show xorn [a, b, c, d, e, f, g, h, i, j] = xor10 a b c d e f g h i j by simp [xorn]]
        exact testBit_xor10 a b c d e f g h i j hj
    | (x + 11), v0 :: v1 :: v2 :: v3 :: v4 :: v5 :: v6 :: v7 :: v8 :: v9 :: v10 :: rest, hl =>
        have hx : rest.length = x := by
          simp only [List.length_cons] at hl
          omega
        rw [show xorn (v0 :: v1 :: v2 :: v3 :: v4 :: v5 :: v6 :: v7 :: v8 :: v9 :: v10 :: rest)
            = orW (andW (xorn (v0 :: v1 :: v2 :: v3 :: v4 :: v5 :: v6 :: v7 :: v8 :: v9 :: v10 :: rest).dropLast)
                (notW ((v0 :: v1 :: v2 :: v3 :: v4 :: v5 :: v6 :: v7 :: v8 :: v9 :: v10 :: rest).getD ((v0 :: v1 :: v2 :: v3 :: v4 :: v5 :: v6 :: v7 :: v8 :: v9 :: v10 :: rest).length - 1) 0)))
              (notW (orW (orn (v0 :: v1 :: v2 :: v3 :: v4 :: v5 :: v6 :: v7 :: v8 :: v9 :: v10 :: rest).dropLast)
                (notW ((v0 :: v1 :: v2 :: v3 :: v4 :: v5 :: v6 :: v7 :: v8 :: v9 :: v10 :: rest).getD ((v0 :: v1 :: v2 :: v3 :: v4 :: v5 :: v6 :: v7 :: v8 :: v9 :: v10 :: rest).length - 1) 0)))) by simp [xorn]]
        have hih := ih (x + 10) (by omega) ((v0 :: v1 :: v2 :: v3 :: v4 :: v5 :: v6 :: v7 :: v8 :: v9 :: v10 :: rest).dropLast)
          (by simp only [List.length_dropLast, List.length_cons]; omega) hj
        simp only [testBit_orW, testBit_andW, testBit_notW hj, testBit_orn]
        rw [hih]
        have hsnoc := exactlyOne_snoc ((v0 :: v1 :: v2 :: v3 :: v4 :: v5 :: v6 :: v7 :: v8 :: v9 :: v10 :: rest).dropLast)
          ((v0 :: v1 :: v2 :: v3 :: v4 :: v5 :: v6 :: v7 :: v8 :: v9 :: v10 :: rest).getD ((v0 :: v1 :: v2 :: v3 :: v4 :: v5 :: v6 :: v7 :: v8 :: v9 :: v10 :: rest).length - 1) 0) (fun v => v.testBit jb)
        rw [dropLast_append_getD (v0 :: v1 :: v2 :: v3 :: v4 :: v5 :: v6 :: v7 :: v8 :: v9 :: v10 :: rest) (by simp)] at hsnoc
        rw [hsnoc]

theorem testBit_xorn (vs : List Nat) {j : Nat} (hj : j < 64) :
    (xorn vs).testBit j = (vs.countP (fun v => v.testBit j) == 1) :=
  testBit_xorn_aux vs.length vs rfl hj

/-- C6: bit `j < 64` of `xorn(vs)` is set exactly when exactly one element
of `vs` has bit `j` set, and each fixed-arity `xorK` for `K` in 3..10 has
the same exactly-one-true semantics on its `K` arguments. -/
theorem claim_C6 :
    ((∀ (vs : List Nat), (∀ v ∈ vs, v < 2 ^ 64) → ∀ j < 64,
        ((xorn vs).testBit j = true ↔ vs.countP (fun v => v.testBit j) = 1)))
    ∧ ((∀ a b c : Nat, ∀ j < 64,
        ((xor3 a b c).testBit j = true
          ↔ [a, b, c].countP (fun v => v.testBit j) = 1)))
    ∧ ((∀ a b c d : Nat, ∀ j < 64,
        ((xor4 a b c d).testBit j = true
          ↔ [a, b, c, d].countP (fun v => v.testBit j) = 1)))
    ∧ ((∀ a b c d e : Nat, ∀ j < 64,
        ((xor5 a b c d e).testBit j = true
          ↔ [a, b, c, d, e].countP (fun v => v.testBit j) = 1)))
    ∧ ((∀ a b c d e f : Nat, ∀ j < 64,
        ((xor6 a b c d e f).testBit j = true
          ↔ [a, b, c, d, e, f].countP (fun v => v.testBit j) = 1)))
    ∧ ((∀ a b c d e f g : Nat, ∀ j < 64,
        ((xor7 a b c d e f g).testBit j = true
          ↔ [a, b, c, d, e, f, g].countP (fun v => v.testBit j) = 1)))
    ∧ ((∀ a b c d e f g h : Nat, ∀ j < 64,
        ((xor8 a b c d e f g h).testBit j = true
          ↔ [a, b, c, d, e, f, g, h].countP (fun v => v.testBit j) = 1)))
    ∧ ((∀ a b c d e f g h i : Nat, ∀ j < 64,
        ((xor9 a b c d e f g h i).testBit j = true
          ↔ [a, b, c, d, e, f, g, h, i].countP (fun v => v.testBit j) = 1)))
    ∧ ((∀ a b c d e f g h i j : Nat, ∀ jb < 64,
        ((xor10 a b c d e f g h i j).testBit jb = true
          ↔ [a, b, c, d, e, f, g, h, i, j].countP (fun v => v.testBit jb) = 1))) := by
  refine ⟨?_, ?_, ?_, ?_, ?_, ?_, ?_, ?_, ?_⟩
  · intro vs _ j hj
    rw [testBit_xorn vs hj]
    exact beq_iff_eq
  · intro a b c j hj
    rw [testBit_xor3 a b c hj]
    exact beq_iff_eq
  · intro a b c d j hj
    rw [testBit_xor4 a b c d hj]
    exact beq_iff_eq
  · intro a b c d e j hj
    rw [testBit_xor5 a b c d e hj]
    exact beq_iff_eq
  · intro a b c d e f j hj
    rw [testBit_xor6 a b c d e f hj]
    exact beq_iff_eq
  · intro a b c d e f g j hj
    rw [testBit_xor7 a b c d e f g hj]
    exact beq_iff_eq
  · intro a b c d e f g h j hj
    rw [testBit_xor8 a b c d e f g h hj]
    exact beq_iff_eq
  · intro a b c d e f g h i j hj
    rw [testBit_xor9 a b c d e f g h i hj]
    exact beq_iff_eq
  · intro a b c d e f g h i j jb hj
    rw [testBit_xor10 a b c d e f g h i j hj]
    exact beq_iff_eq

/-- C6 witness: the exactly-one-true reading evaluated on concrete words
for the variadic form, `xor3` and `xor10`. -/
theorem claim_C6_witness :
    ((xorn [Tw, Fw, Fw]).testBit 0 = true
      ↔ [Tw, Fw, Fw].countP (fun v => v.testBit 0) = 1)
    ∧ ((xor3 Tw Tw Fw).testBit 5 = true
      ↔ [Tw, Tw, Fw].countP (fun v => v.testBit 5) = 1)
    ∧ ((xor10 Tw Fw Fw Fw Fw Fw Fw Fw Fw Fw).testBit 0 = true
      ↔ [Tw, Fw, Fw, Fw, Fw, Fw, Fw, Fw, Fw, Fw].countP (fun v => v.testBit 0) = 1) :=
  ⟨claim_C6.1 [Tw, Fw, Fw] (by decide) 0 (by norm_num),
   claim_C6.2.1 Tw Tw Fw 5 (by norm_num),
   claim_C6.2.2.2.2.2.2.2.2 Tw Fw Fw Fw Fw Fw Fw Fw Fw Fw 0 (by norm_num)⟩

/-- Amplifies a "wavefunction" by repeatedly OR-ing in its qubit
transform: the loop body is `a |= qubit(a)`, run `n` times. `qubit` draws
from the external `rand` crate's PRNG seeded by `a xor seed`; for a fixed
ambient seed it is a function of its argument, modelled here as the
parameter `q`. -/
def amplify (q : Nat → Nat) : Nat → Nat → Nat
  | 0, a => a
  | n + 1, a => amplify q n (a ||| q a)

/-- The claim's reading of `amplify`: OR of `a` with the first `n` iterates
of `qubit` applied repeatedly to `a` itself (`a | q(a) | q(q(a)) | ...`),
each `qubit` applied to the previous qubit output, not the accumulator. -/
def amplify_spec (q : Nat → Nat) (n : Nat) (a : Nat) : Nat :=
  (List.range n).foldl (fun acc k => acc ||| q^[k + 1] a) a

/-- Distinguishing qubit transformer for the counterexample. -/
def qEx (x : Nat) : Nat :=
  if x = 1 then 2 else if x = 2 then 8 else if x = 3 then 4 else 0

theorem amplify_succ (q : Nat → Nat) (n a : Nat) :
    amplify q (n + 1) a = amplify q n a ||| q (amplify q n a) := by
  induction n generalizing a with
  | zero => rfl
  | succ n ih =>
      show amplify q (n + 1) (a ||| q a) = _
      rw [ih (a ||| q a)]
      rfl

theorem amplify_bit_mono (q : Nat → Nat) (n a : Nat) {j : Nat}
    (h : a.testBit j = true) : (amplify q n a).testBit j = true := by
  induction n generalizing a with
  | zero => exact h
  | succ n ih =>
      show (amplify q n (a ||| q a)).testBit j = true
      exact ih (a ||| q a) (by simp [Nat.testBit_or, h])

/-- C7 (amended): `amplify(n, a)` ORs `a` with `n` successive qubit draws,
each applied to the accumulated OR so far (not to the previous raw qubit
output), and set bits are never cleared, neither within one run nor when
`n` grows. -/
theorem claim_C7 (q : Nat → Nat) (n a : Nat) :
    (amplify q n a
      = (List.range n).foldl (fun acc k => acc ||| q (amplify q k a)) a)
    ∧ (∀ j, a.testBit j = true → (amplify q n a).testBit j = true)
    ∧ (∀ j, (amplify q n a).testBit j = true
        → (amplify q (n + 1) a).testBit j = true) := by
  refine ⟨?_, fun j h => amplify_bit_mono q n a h, fun j h => ?_⟩
  · induction n with
    | zero => rfl
    | succ n ih =>
        rw [amplify_succ, List.range_succ, List.foldl_append]
        simp only [List.foldl_cons, List.foldl_nil, ih]
  · rw [amplify_succ]
    simp [Nat.testBit_or, h]

/-- C7 witness: the amended characterization evaluated at the concrete
transformer `qEx`, one step, start word 1. -/
theorem claim_C7_witness :
    (amplify qEx 1 1
      = (List.range 1).foldl (fun acc k => acc ||| qEx (amplify qEx k 1)) 1)
    ∧ (amplify qEx 1 1).testBit 0 = true :=
  ⟨(claim_C7 qEx 1 1).1, (claim_C7 qEx 1 1).2.1 0 (by decide)⟩

/-- C7 counterexample: with the transformer `qEx`, two amplification steps
from 1 give `(1 | 2) | qEx 3 = 7`, while the claim's chain
`1 | qEx 1 | qEx (qEx 1) = 3 | 8 = 11`; the claim as stated is false. -/
theorem claim_C7_counterexample : amplify qEx 2 1 ≠ amplify_spec qEx 2 1 := by
  decide

/-- The `u8` instance of `Enumerable`: start 0, successor `checked_add(1)`
(which is `None` exactly at 255). -/
def inc8 (v : Nat) : Option Nat := if v + 1 ≤ 255 then some (v + 1) else none

/-- The `all` enumeration loop: starting from `val`, repeatedly advance
with `inc` and test `f` on each produced value, returning `F` on the first
non-`T` output and `T` when `inc` is exhausted. `fuel` bounds the number
of iterations; every `u8` run fits in fuel 256. -/
def allLoop (inc : Nat → Option Nat) (f : Nat → Nat) : Nat → Nat → Nat
  | 0, _ => Tw
  | fuel + 1, val =>
    match inc val with
    | none => Tw
    | some nv => if f nv ≠ Tw then Fw else allLoop inc f fuel nv

/-- The `any` enumeration loop, returning `T` on the first non-`F` output
and `F` when `inc` is exhausted. -/
def anyLoop (inc : Nat → Option Nat) (f : Nat → Nat) : Nat → Nat → Nat
  | 0, _ => Fw
  | fuel + 1, val =>
    match inc val with
    | none => Fw
    | some nv => if f nv ≠ Fw then Tw else anyLoop inc f fuel nv

/-- Specialisation of `all` to the `u8` instance. -/
def all8 (f : Nat → Nat) : Nat := allLoop inc8 f 256 0

/-- Specialisation of `any` to the `u8` instance. -/
def any8 (f : Nat → Nat) : Nat := anyLoop inc8 f 256 0

theorem allLoop_congr (inc : Nat → Option Nat) (f g : Nat → Nat)
    (h : ∀ u v, inc u = some v → f v = g v) :
    ∀ fuel val, allLoop inc f fuel val = allLoop inc g fuel val := by
  intro fuel
  induction fuel with
  | zero => intro val; rfl
  | succ fuel ih =>
      intro val
      cases hiv : inc val with
      | none => simp [allLoop, hiv]
      | some nv => simp [allLoop, hiv, h val nv hiv, ih nv]

theorem anyLoop_congr (inc : Nat → Option Nat) (f g : Nat → Nat)
    (h : ∀ u v, inc u = some v → f v = g v) :
    ∀ fuel val, anyLoop inc f fuel val = anyLoop inc g fuel val := by
  intro fuel
  induction fuel with
  | zero => intro val; rfl
  | succ fuel ih =>
      intro val
      cases hiv : inc val with
      | none => simp [anyLoop, hiv]
      | some nv => simp [anyLoop, hiv, h val nv hiv, ih nv]

theorem all8_true_aux (f : Nat → Nat) (h : ∀ v, 1 ≤ v → v ≤ 255 → f v = Tw) :
    ∀ fuel val, 255 - val < fuel → allLoop inc8 f fuel val = Tw := by
  intro fuel
  induction fuel with
  | zero => intro val hv; omega
  | succ fuel ih =>
      intro val hv
      by_cases h255 : val + 1 ≤ 255
      · have hiv : inc8 val = some (val + 1) := by simp [inc8, h255]
        have hfv : f (val + 1) = Tw := h (val + 1) (by omega) (by omega)
        simp [allLoop, hiv, hfv, ih (val + 1) (by omega)]
      · have hiv : inc8 val = none := by simp [inc8, h255]
        simp [allLoop, hiv]

/-- C9: `any` and `all` never evaluate the predicate at the start value;
the predicate is applied only to values produced by `inc`, so the result
is unchanged when the predicate is modified anywhere outside the image of
`inc`, and `all` over `u8` returns `T` whenever the predicate is `T` on
1..=255, regardless of the value at 0. -/
theorem claim_C9 :
    (∀ (inc : Nat → Option Nat) (f g : Nat → Nat),
      (∀ u v, inc u = some v → f v = g v) →
      ∀ fuel val, allLoop inc f fuel val = allLoop inc g fuel val
        ∧ anyLoop inc f fuel val = anyLoop inc g fuel val)
    ∧ (∀ f : Nat → Nat, (∀ v, 1 ≤ v → v ≤ 255 → f v = Tw) → all8 f = Tw) :=
  ⟨fun inc f g h fuel val =>
      ⟨allLoop_congr inc f g h fuel val, anyLoop_congr inc f g h fuel val⟩,
   fun f h => all8_true_aux f h 256 0 (by norm_num)⟩

/-- C9 witness: over `u8`, the constant-`T` predicate and the predicate
that is `F` at the start value 0 but `T` elsewhere give the same `all`
result, namely `T`. -/
theorem claim_C9_witness :
    (allLoop inc8 (fun _ => Tw) 256 0
        = allLoop inc8 (fun v => if v = 0 then Fw else Tw) 256 0
      ∧ anyLoop inc8 (fun _ => Tw) 256 0
        = anyLoop inc8 (fun v => if v = 0 then Fw else Tw) 256 0)
    ∧ all8 (fun v => if v = 0 then Fw else Tw) = Tw :=
  ⟨claim_C9.1 inc8 (fun _ => Tw) (fun v => if v = 0 then Fw else Tw)
      (by
        intro u v h
        simp only [inc8] at h
        split at h
        · cases h
          simp
        · cases h) 256 0,
   claim_C9.2 (fun v => if v = 0 then Fw else Tw)
      (by
        intro v h1 h2
        simp
        omega)⟩

/-- Maximum energy of the `u32` observable (`u32::MAX`). -/
def u32MAX : Nat := 2 ^ 32 - 1

/-- Measures a result repeatedly: `n` invocations of the closure are
folded with `min_energy`, starting from `max_energy`; the `k`-th
invocation's result is modelled as `f k`. -/
def measureG {O : Type} (maxE : O) (minE : O → O → O) (n : Nat) (f : Nat → O) : O :=
  (List.range n).foldl (fun b k => minE b (f k)) maxE

/-- The `bool` observable: `max_energy = true`, `min_energy = and`. -/
def measureBool (n : Nat) (f : Nat → Bool) : Bool :=
  measureG true (fun a b => a && b) n f

/-- The `u32` observable: `max_energy = u32::MAX`, `min_energy = min`. -/
def measureU32 (n : Nat) (f : Nat → Nat) : Nat :=
  measureG u32MAX Nat.min n f

/-- C10: `measure(0, f)` returns `max_energy` without invoking `f` (the
result of `measure(n, f)` depends only on the first `n` invocation
results), and `measure` folds the `n` results with `min_energy` starting
from `max_energy`; for the `bool` and `u32` observables the zero-iteration
values are `true` and `u32::MAX`. -/
theorem claim_C10 :
    (∀ {O : Type} (maxE : O) (minE : O → O → O) (f : Nat → O),
        measureG maxE minE 0 f = maxE)
    ∧ (∀ {O : Type} (maxE : O) (minE : O → O → O) (n : Nat) (f g : Nat → O),
        (∀ k < n, f k = g k) → measureG maxE minE n f = measureG maxE minE n g)
    ∧ (∀ {O : Type} (maxE : O) (minE : O → O → O) (n : Nat) (f : Nat → O),
        measureG maxE minE (n + 1) f = minE (measureG maxE minE n f) (f n))
    ∧ (∀ f : Nat → Bool, measureBool 0 f = true)
    ∧ (∀ f : Nat → Nat, measureU32 0 f = u32MAX) := by
  refine ⟨fun _ _ _ => rfl, ?_, ?_, fun _ => rfl, fun _ => rfl⟩
  · intro O maxE minE n f g h
    unfold measureG
    induction n with
    | zero => rfl
    | succ n ih =>
        rw [List.range_succ, List.foldl_append, List.foldl_append,
          ih (fun k hk => h k (by omega))]
        simp [h n (by omega)]
  · intro O maxE minE n f
    unfold measureG
    rw [List.range_succ, List.foldl_append]
    rfl

/-- C10 witness: two result streams agreeing on their first two entries
give the same two-trial boolean measurement. -/
theorem claim_C10_witness :
    measureG true (fun a b => a && b) 2 (fun _ => true)
      = measureG true (fun a b => a && b) 2 (fun k => decide (k ≤ 5)) :=
  claim_C10.2.1 true (fun a b => a && b) 2 (fun _ => true) (fun k => decide (k ≤ 5))
    (by
      intro k hk
      simp
      omega)

/-- Seed-threading model of `call`: one invocation draws the next random
word of the supply, installs it as the ambient seed for the duration of
the body (which may read it through `qubit`/`qual`), evaluates the body
once, and removes the seed; the result is returned with the advanced
supply index. -/
def callS (sup : Nat → Nat) (k : Nat) (body : Nat → Nat) : Nat × Nat :=
  (body (sup k), k + 1)

/-- Seeded model of `count1`: a single `call` around the masked closure
evaluation. -/
def count1S (sup : Nat → Nat) (f : Nat → Nat → Nat) (k : Nat) : Nat × Nat :=
  let r := callS sup k (fun s => f P0 s &&& 0x3)
  (popcount64 r.1, r.2)

/-- Seeded model of `count6`: a single `call` around the closure
evaluation. -/
def count6S (sup : Nat → Nat)
    (f : Nat → Nat → Nat → Nat → Nat → Nat → Nat → Nat) (k : Nat) : Nat × Nat :=
  let r := callS sup k (fun s => f P0 P1 P2 P3 P4 P5 s)
  (popcount64 r.1, r.2)

/-- Seeded model of `count7`: two separate `call`s, one per residual
assignment of the seventh variable. -/
def count7S (sup : Nat → Nat)
    (f : Nat → Nat → Nat → Nat → Nat → Nat → Nat → Nat → Nat) (k : Nat) : Nat × Nat :=
  let r1 := callS sup k (fun s => f P0 P1 P2 P3 P4 P5 Fw s)
  let r2 := callS sup r1.2 (fun s => f P0 P1 P2 P3 P4 P5 Tw s)
  (popcount64 r1.1 + popcount64 r2.1, r2.2)

/-- The claim's single-seed semantics for `count7`: both evaluation
batches of the closure observe one seed `s`. -/
def count7Fixed (s : Nat)
    (f : Nat → Nat → Nat → Nat → Nat → Nat → Nat → Nat → Nat) : Nat :=
  popcount64 (f P0 P1 P2 P3 P4 P5 Fw s) + popcount64 (f P0 P1 P2 P3 P4 P5 Tw s)

/-- A closure whose truth value reveals the ambient seed it observes. -/
def fSeed (_ _ _ _ _ _ _ s : Nat) : Nat := if s = 0 then Tw else Fw

/-- C4 (amended): a fresh random seed is installed and torn down around
each internal `call`, not once per counter invocation: a counter with at
most six variables evaluates the closure once under the single seed drawn
at its start, while `count7` runs two `call`s, whose batches observe the
two consecutive supply draws; only under a constant supply does `count7`
coincide with the single-seed semantics. -/
theorem claim_C4 (sup : Nat → Nat) (k : Nat) (f1 : Nat → Nat → Nat)
    (f6 : Nat → Nat → Nat → Nat → Nat → Nat → Nat → Nat)
    (f7 : Nat → Nat → Nat → Nat → Nat → Nat → Nat → Nat → Nat) :
    count1S sup f1 k = (popcount64 (f1 P0 (sup k) &&& 0x3), k + 1)
    ∧ count6S sup f6 k = (popcount64 (f6 P0 P1 P2 P3 P4 P5 (sup k)), k + 1)
    ∧ count7S sup f7 k
      = (popcount64 (f7 P0 P1 P2 P3 P4 P5 Fw (sup k))
          + popcount64 (f7 P0 P1 P2 P3 P4 P5 Tw (sup (k + 1))), k + 2)
    ∧ (∀ s : Nat, (count7S (fun _ => s) f7 k).1 = count7Fixed s f7) :=
  ⟨rfl, rfl, rfl, fun _ => rfl⟩

/-- C4 counterexample: with the supply 0, 1, 2, … and a closure whose
value depends on the seed it observes, `count7` returns 64 — the two
batches see the different seeds 0 and 1 — while under every single seed
the result would be 128 or 0; no single ambient seed explains the run, so
the claim that every closure evaluation of one counter call observes the
same seed is false. -/
theorem claim_C4_counterexample :
    ¬ ∃ s : Nat, (count7S (fun k => k) fSeed 0).1 = count7Fixed s fSeed := by
  rintro ⟨s, hs⟩
  have e1 : (count7S (fun k => k) fSeed 0).1 = 64 := by decide
  rw [e1] at hs
  by_cases h0 : s = 0
  · rw [h0] at hs
    have e2 : count7Fixed 0 fSeed = 128 := by decide
    rw [e2] at hs
    exact absurd hs (by norm_num)
  · have e3 : count7Fixed s fSeed = 0 := by
      show popcount64 (fSeed P0 P1 P2 P3 P4 P5 Fw s)
          + popcount64 (fSeed P0 P1 P2 P3 P4 P5 Tw s) = 0
      rw [show fSeed P0 P1 P2 P3 P4 P5 Fw s = Fw by simp [fSeed, h0]]
      rw [show fSeed P0 P1 P2 P3 P4 P5 Tw s = Fw by simp [fSeed, h0]]
      decide
    rw [e3] at hs
    exact absurd hs (by norm_num)

/-- Wrapping `u64` subtraction. -/
def wsub (a b : Nat) : Nat := (a + (2 ^ 64 - b % 2 ^ 64)) % 2 ^ 64

theorem wsub_eq {a b : Nat} (hb : b ≤ a) (ha : a < 2 ^ 64) : wsub a b = a - b := by
  unfold wsub
  rw [Nat.mod_eq_of_lt (show b < 2 ^ 64 by omega)]
  rw [show a + (2 ^ 64 - b) = (a - b) + 2 ^ 64 by omega, Nat.add_mod_right,
    Nat.mod_eq_of_lt (by omega)]

theorem countP_not (l : List Nat) (p : Nat → Bool) :
    l.countP (fun a => !p a) = l.length - l.countP p := by
  induction l with
  | nil => rfl
  | cons a l ih =>
      have hle := List.countP_le_length (l := l) (p := p)
      cases ha : p a <;>
        simp [List.countP_cons, ha, ih, List.length_cons] <;> omega

theorem countP_or_disjoint (l : List Nat) (p q : Nat → Bool)
    (hdis : ∀ a, ¬(p a = true ∧ q a = true)) :
    l.countP (fun a => p a || q a) = l.countP p + l.countP q := by
  induction l with
  | nil => rfl
  | cons a l ih =>
      cases ha : p a
      · cases hq : q a
        · simp [List.countP_cons, ha, hq, ih]
        · simp [List.countP_cons, ha, hq, ih]
          omega
      · cases hq : q a
        · simp [List.countP_cons, ha, hq, ih]
          omega
        · exact absurd ⟨ha, hq⟩ (hdis a)

theorem liftOK_implyW {n : Nat} {r f : List Nat → Nat} {R Fp : Nat → Bool}
    (hR : LiftOK n r R) (hF : LiftOK n f Fp) :
    LiftOK n (fun vs => implyW (r vs) (f vs)) (fun c => !R c || Fp c) := by
  intro vs hlen hb
  have h1 := hR vs hlen hb
  have h2 := hF vs hlen hb
  refine ⟨implyW_lt h1.1 h2.1, fun j hj => ?_⟩
  rw [testBit_implyW hj, h1.2 j hj, h2.2 j hj]

theorem liftOK_implyW_Fw {n : Nat} {r : List Nat → Nat} {R : Nat → Bool}
    (hR : LiftOK n r R) :
    LiftOK n (fun vs => implyW (r vs) Fw) (fun c => !R c) := by
  intro vs hlen hb
  have h1 := hR vs hlen hb
  refine ⟨implyW_lt h1.1 (by decide), fun j hj => ?_⟩
  rw [testBit_implyW hj, h1.2 j hj, testBit_Fw, Bool.or_false]

theorem liftOK_implyW_Tw {n : Nat} {r : List Nat → Nat} {R : Nat → Bool}
    (hR : LiftOK n r R) :
    LiftOK n (fun vs => implyW (r vs) Tw) (fun _ => true) := by
  intro vs hlen hb
  have h1 := hR vs hlen hb
  refine ⟨implyW_lt h1.1 Tw_lt, fun j hj => ?_⟩
  rw [testBit_implyW hj, testBit_Tw hj, Bool.or_true]

/-- The logical probability `P(f | rules)` of a configurable logical
system with `n` variable bits; `Prove::count` wraps each statement in
`imply(full_rules, -)`, and `prob` divides the count of cases satisfying
both rules and statement by the count of cases satisfying the rules,
returning `None` when the latter is zero. The source divides two exact
`u64` counts as `f64`; the division is modelled as exact rational
division. -/
def prob (n : Nat) (rules f : List Nat → Nat) : Option ℚ :=
  let fa := countn n (fun vs => implyW (rules vs) Fw)
  let tr := countn n (fun vs => implyW (rules vs) Tw)
  let full_rules := wsub tr fa
  if full_rules = 0 then none
  else some ((wsub (countn n (fun vs => implyW (rules vs) (f vs))) fa : ℚ) / (full_rules : ℚ))

theorem satCount_lt_M {n : Nat} (hn : n ≤ 63) (g : Nat → Bool) :
    satCount n g < 2 ^ 64 :=
  lt_of_le_of_lt (satCount_le n g)
    (Nat.pow_lt_pow_right (by norm_num) (by omega))

/-- C8 (amended): for every logical system with `1 ≤ n ≤ 63` variable
bits whose rules and statement are bitwise lifts of pure predicates,
`prob` returns `None` exactly when no assignment satisfies the rules, and
otherwise the ratio of assignments satisfying both rules and statement to
assignments satisfying the rules. -/
theorem claim_C8 (n : Nat) (hn : 1 ≤ n) (hn2 : n ≤ 63)
    (rules f : List Nat → Nat) (R Fp : Nat → Bool)
    (hR : LiftOK n rules R) (hF : LiftOK n f Fp) :
    (prob n rules f = none ↔ satCount n R = 0)
    ∧ (satCount n R ≠ 0 →
        prob n rules f
          = some ((satCount n (fun c => R c && Fp c) : ℚ) / (satCount n R : ℚ))) := by
  have hfa : countn n (fun vs => implyW (rules vs) Fw) = satCount n (fun c => !R c) := by
    rw [countn_eq n hn _ _ (liftOK_implyW_Fw hR)]
    exact Nat.mod_eq_of_lt (satCount_lt_M hn2 _)
  have htr : countn n (fun vs => implyW (rules vs) Tw) = 2 ^ n := by
    rw [countn_eq n hn _ _ (liftOK_implyW_Tw hR)]
    rw [satCount_constT]
    exact Nat.mod_eq_of_lt (Nat.pow_lt_pow_right (by norm_num) (by omega))
  have hcf : countn n (fun vs => implyW (rules vs) (f vs))
      = satCount n (fun c => !R c || Fp c) := by
    rw [countn_eq n hn _ _ (liftOK_implyW hR hF)]
    exact Nat.mod_eq_of_lt (satCount_lt_M hn2 _)
  have hnotR : satCount n (fun c => !R c) = 2 ^ n - satCount n R := by
    unfold satCount
    rw [countP_not, List.length_range]
  have hRle : satCount n R ≤ 2 ^ n := satCount_le n R
  have hfull : wsub (countn n (fun vs => implyW (rules vs) Tw))
      (countn n (fun vs => implyW (rules vs) Fw)) = satCount n R := by
    rw [hfa, htr, hnotR, wsub_eq (by omega)
      (Nat.pow_lt_pow_right (by norm_num) (by omega))]
    omega
  have hsplit : satCount n (fun c => !R c || Fp c)
      = satCount n (fun c => !R c) + satCount n (fun c => R c && Fp c) := by
    have he : satCount n (fun c => !R c || Fp c)
        = satCount n (fun c => !R c || (R c && Fp c)) := by
      unfold satCount
      apply List.countP_congr
      intro c _
      cases hc : R c <;> cases hf2 : Fp c <;> simp [hc, hf2]
    rw [he]
    unfold satCount
    exact countP_or_disjoint _ _ _ (by
      intro c
      rintro ⟨h1, h2⟩
      simp at h1
      simp [h1] at h2)
  have hnum : wsub (countn n (fun vs => implyW (rules vs) (f vs)))
      (countn n (fun vs => implyW (rules vs) Fw))
        = satCount n (fun c => R c && Fp c) := by
    rw [hcf, hfa, hsplit]
    rw [wsub_eq (by omega) (by rw [← hsplit]; exact satCount_lt_M hn2 _)]
    omega
  constructor
  · unfold prob
    simp only [hfull]
    constructor
    · intro h
      by_contra hne
      rw [if_neg hne] at h
      cases h
    · intro h
      rw [if_pos h]
  · intro h
    unfold prob
    simp only [hfull, hnum, if_neg h]

/-- C8 witness: the one-bit system whose rule is its own variable and
whose statement is `T`: the rules are satisfiable and the probability is
`1 / 1`. -/
theorem claim_C8_witness :
    (prob 1 (fun vs => vs.headD 0) (fun _ => Tw) = none
      ↔ satCount 1 (fun c => c.testBit 0) = 0)
    ∧ (satCount 1 (fun c => c.testBit 0) ≠ 0 →
        prob 1 (fun vs => vs.headD 0) (fun _ => Tw)
          = some ((satCount 1 (fun c => c.testBit 0 && true) : ℚ)
              / (satCount 1 (fun c => c.testBit 0) : ℚ))) :=
  claim_C8 1 (by norm_num) (by norm_num) (fun vs => vs.headD 0) (fun _ => Tw)
    (fun c => c.testBit 0) (fun _ => true) liftOK_head (liftOK_constT 1)

/-- C8 counterexample: a system with 64 variable bits and tautological
rules: every assignment satisfies the rules, yet both `u64` counts wrap
to 0, `full_rules` computes to 0, and `prob` returns `None`; the
"None iff unsatisfiable" claim fails. -/
theorem claim_C8_counterexample :
    prob 64 (fun _ => Tw) (fun _ => Tw) = none
    ∧ satCount 64 (fun _ => true) ≠ 0 := by
  constructor
  · unfold prob
    have h0 : countn 64 (fun vs => implyW ((fun _ : List Nat => Tw) vs) Tw) = 0 := by
      have hlift : LiftOK 64 (fun vs => implyW ((fun _ : List Nat => Tw) vs) Tw)
          (fun _ => true) := liftOK_implyW_Tw (liftOK_constT 64)
      rw [countn_eq 64 (by norm_num) _ _ hlift, satCount_constT]
      simp
    have h1 : countn 64 (fun vs => implyW ((fun _ : List Nat => Tw) vs) Fw) = 0 := by
      have hlift : LiftOK 64 (fun vs => implyW ((fun _ : List Nat => Tw) vs) Fw)
          (fun c => !(fun _ : Nat => true) c) := liftOK_implyW_Fw (liftOK_constT 64)
      rw [countn_eq 64 (by norm_num) _ _ hlift]
      have : satCount 64 (fun c => !(fun _ : Nat => true) c) = 0 := by
        unfold satCount
        apply List.countP_eq_zero.mpr
        intro a _
        simp
      rw [this]
      simp
    simp only [h0, h1]
    rw [show wsub 0 0 = 0 from by unfold wsub; simp]
    rfl
  · rw [satCount_constT]
    positivity

/-- Path Semantical Logic: counts the solutions of a 3-argument boolean
function over the hand-woven list of path-1 compatible bit patterns. -/
def path1_count3 (f : Nat × Nat → Nat → Nat) : Nat :=
  popcount64 (f (0b00001111, 0b00110011)
      0b01010101
    &&& 0b11111111)

/-- Path Semantical Logic: counts the solutions of a 4-argument boolean
function over the hand-woven list of path-1 compatible bit patterns. -/
def path1_count4 (f : Nat × Nat → Nat × Nat → Nat) : Nat :=
  popcount64 (f (0b00000011111111, 0b00111100001111)
      (0b01001100110011, 0b01010101010101)
    &&& 0b11111111111111)

/-- Path Semantical Logic: counts the solutions of a 5-argument boolean
function over the hand-woven list of path-1 compatible bit patterns. -/
def path1_count5 (f : Nat × Nat × Nat → Nat × Nat → Nat) : Nat :=
  popcount64 (f (0b000000000011111111111111, 0b000011111100000011111111, 0b001100111100111100001111)
      (0b010101001101001100110011, 0b010101010101010101010101)
    &&& 0b111111111111111111111111)

/-- Path Semantical Logic: counts the solutions of a 6-argument boolean
function over the hand-woven list of path-1 compatible bit patterns. -/
def path1_count6 (f : Nat × Nat × Nat → Nat × Nat × Nat → Nat) : Nat :=
  popcount64 (f (0b0000000000000011111111111111111111111111, 0b0000111111111100000000001111111111111111, 0b0011001111111100111111110000000011111111)
      (0b0101010000111101000011110000111100001111, 0b0101010011001101001100110011001100110011, 0b0101010101010101010101010101010101010101)
    &&& 0b1111111111111111111111111111111111111111)

/-- Path Semantical Logic: counts the solutions of a 7-argument boolean
function over the hand-woven list of path-1 compatible bit patterns. -/
def path1_count7 (f : Nat × Nat × Nat × Nat → Nat × Nat × Nat → Nat) : Nat :=
  popcount64 (f (0b00000000000000000000001111111111111111111111111111111111111111, 0b00000000111111111111110000000000000011111111111111111111111111, 0b00001111000011111111110000111111111100000000001111111111111111, 0b00110011001100111111110011001111111100111111110000000011111111)
      (0b01010101010101000011110101010000111101000011110000111100001111, 0b01010101010101001100110101010011001101001100110011001100110011, 0b01010101010101010101010101010101010101010101010101010101010101)
    &&& 0b11111111111111111111111111111111111111111111111111111111111111)

/-- Path Semantical Logic: counts the solutions of a 8-argument boolean
function over the hand-woven list of path-1 compatible bit patterns. -/
def path1_count8 (f : Nat × Nat × Nat × Nat → Nat × Nat × Nat × Nat → Nat) : Nat :=
  popcount64 (f (0b0000000000000000000000000000001111111111111111111111111111111111, 0b0000000011111111111111111111110000000000000000000000111111111111, 0b0000111100001111111111111111110000111111111111111111000000000000, 0b0011001100110011111111111111110011001111111111111111001111111111)
      (0b0101010101010100000000111111110101010000000011111111010000000011, 0b0101010101010100001111000011110101010000111100001111010000111100, 0b0101010101010100110011001100110101010011001100110011010011001100, 0b0101010101010101010101010101010101010101010101010101010101010101))
  + popcount64 (f (0b11111111111111111111111111111111111111, 0b11111111111111111111111111111111111111, 0b00000011111111111111111111111111111111, 0b11111100000000000000001111111111111111)
      (0b11111100000000111111110000000011111111, 0b00111100001111000011110000111100001111, 0b11001100110011001100110011001100110011, 0b01010101010101010101010101010101010101)
    &&& 0b11111111111111111111111111111111111111)

/-- Path Semantical Logic: counts the solutions of a 9-argument boolean
function over the hand-woven list of path-1 compatible bit patterns. -/
def path1_count9 (f : Nat × Nat × Nat × Nat × Nat → Nat × Nat × Nat × Nat → Nat) : Nat :=
  popcount64 (f (0b0000000000000000000000000000000000000000000000111111111111111111, 0b0000000000000000111111111111111111111111111111000000000000000000, 0b0000000011111111000000001111111111111111111111000000001111111111, 0b0000111100001111000011110000111111111111111111000011110000111111, 0b0011001100110011001100110011001111111111111111001100110011001111)
      (0b0101010101010101010101010101010000000011111111010101010101010000, 0b0101010101010101010101010101010000111100001111010101010101010000, 0b0101010101010101010101010101010011001100110011010101010101010011, 0b0101010101010101010101010101010101010101010101010101010101010101))
  + popcount64 (f (0b1111111111111111111111111111111111111111111111111111111111111111, 0b0000000000001111111111111111111111111111111111111111111111111111, 0b1111111111110000000000000000000000111111111111111111111111111111, 0b1111111111110000111111111111111111000000000000000000111111111111, 0b1111111111110011001111111111111111001111111111111111000000000000)
      (0b0000111111110101010000000011111111010000000011111111000000001111, 0b1111000011110101010000111100001111010000111100001111000011110000, 0b0011001100110101010011001100110011010011001100110011001100110011, 0b0101010101010101010101010101010101010101010101010101010101010101))
  + popcount64 (f (0b11111111111111111111, 0b11111111111111111111, 0b11111111111111111111, 0b11111111111111111111, 0b00001111111111111111)
      (0b11110000000011111111, 0b11110000111100001111, 0b00110011001100110011, 0b01010101010101010101)
    &&& 0b11111111111111111111)

/-- Path Semantical Logic: counts the solutions of a 10-argument boolean
function over the hand-woven list of path-1 compatible bit patterns. -/
def path1_count10 (f : Nat × Nat × Nat × Nat × Nat → Nat × Nat × Nat × Nat × Nat → Nat) : Nat :=
  popcount64 (f (0b0000000000000000000000000000000000000000000000000000000000000011, 0b0000000000000000111111111111111111111111111111111111111111111100, 0b0000000011111111000000001111111111111111111111111111111111111100, 0b0000111100001111000011110000111111111111111111111111111111111100, 0b0011001100110011001100110011001111111111111111111111111111111100)
      (0b0101010101010101010101010101010000000000000000111111111111111101, 0b0101010101010101010101010101010000000011111111000000001111111101, 0b0101010101010101010101010101010000111100001111000011110000111101, 0b0101010101010101010101010101010011001100110011001100110011001101, 0b0101010101010101010101010101010101010101010101010101010101010101))
  + popcount64 (f (0b1111111111111111111111111111111111111111111111111111111111111111, 0b0000000000000000000000000000000000000000000011111111111111111111, 0b0000001111111111111111111111111111111111111100000000000000000000, 0b0011110000111111111111111111111111111111111100001111111111111111, 0b1100110011001111111111111111111111111111111100110011111111111111)
      (0b0101010101010000000000000000111111111111111101010100000000000000, 0b0101010101010000000011111111000000001111111101010100000000111111, 0b0101010101010000111100001111000011110000111101010100001111000011, 0b0101010101010011001100110011001100110011001101010100110011001100, 0b0101010101010101010101010101010101010101010101010101010101010101))
  + popcount64 (f (0b1111111111111111111111111111111111111111111111111111111111111111, 0b1111111111111111111111111111111111111111111111111111111111111111, 0b0000000000000000001111111111111111111111111111111111111111111111, 0b1111111111111111110000000000000000000000000000000000111111111111, 0b1111111111111111110011111111111111111111111111111111000000000000)
      (0b0011111111111111110100000000000000001111111111111111000000000000, 0b1100000000111111110100000000111111110000000011111111000000001111, 0b1100001111000011110100001111000011110000111100001111000011110000, 0b1100110011001100110100110011001100110011001100110011001100110011, 0b0101010101010101010101010101010101010101010101010101010101010101))
  + popcount64 (f (0b1111111111111111111111111111111111111111111111111111, 0b1111111111111111111111111111111111111111111111111111, 0b1111111111111111111111111111111111111111111111111111, 0b1111111111111111111111111111111111111111111111111111, 0b0000000000000000000011111111111111111111111111111111)
      (0b0000111111111111111100000000000000001111111111111111, 0b1111000000001111111100000000111111110000000011111111, 0b1111000011110000111100001111000011110000111100001111, 0b0011001100110011001100110011001100110011001100110011, 0b0101010101010101010101010101010101010101010101010101)
    &&& 0b1111111111111111111111111111111111111111111111111111)

/-- The tupled closure of `path1_count3` is the bitwise lift of the pure
boolean function `g` of its 3 arguments (f-part coded in the low 2 bits
of the assignment code, x-part above them). -/
def LiftP3 (f : Nat × Nat → Nat → Nat) (g : Nat → Bool) : Prop :=
  ∀ a b c : Nat, a < 2 ^ 64 → b < 2 ^ 64 → c < 2 ^ 64 →
    f (a, b) c < 2 ^ 64
    ∧ ∀ j < 64, (f (a, b) c).testBit j
        = g (colCode [a, b] j + 2 ^ 2 * colCode [c] j)

/-- The tupled closure of `path1_count4` is the bitwise lift of the pure
boolean function `g` of its 4 arguments (f-part coded in the low 2 bits
of the assignment code, x-part above them). -/
def LiftP4 (f : Nat × Nat → Nat × Nat → Nat) (g : Nat → Bool) : Prop :=
  ∀ a b c d : Nat, a < 2 ^ 64 → b < 2 ^ 64 → c < 2 ^ 64 → d < 2 ^ 64 →
    f (a, b) (c, d) < 2 ^ 64
    ∧ ∀ j < 64, (f (a, b) (c, d)).testBit j
        = g (colCode [a, b] j + 2 ^ 2 * colCode [c, d] j)

/-- The tupled closure of `path1_count5` is the bitwise lift of the pure
boolean function `g` of its 5 arguments (f-part coded in the low 3 bits
of the assignment code, x-part above them). -/
def LiftP5 (f : Nat × Nat × Nat → Nat × Nat → Nat) (g : Nat → Bool) : Prop :=
  ∀ a b c d e : Nat, a < 2 ^ 64 → b < 2 ^ 64 → c < 2 ^ 64 → d < 2 ^ 64 → e < 2 ^ 64 →
    f (a, b, c) (d, e) < 2 ^ 64
    ∧ ∀ j < 64, (f (a, b, c) (d, e)).testBit j
        = g (colCode [a, b, c] j + 2 ^ 3 * colCode [d, e] j)

/-- The tupled closure of `path1_count6` is the bitwise lift of the pure
boolean function `g` of its 6 arguments (f-part coded in the low 3 bits
of the assignment code, x-part above them). -/
def LiftP6 (f : Nat × Nat × Nat → Nat × Nat × Nat → Nat) (g : Nat → Bool) : Prop :=
  ∀ a b c d e f2 : Nat, a < 2 ^ 64 → b < 2 ^ 64 → c < 2 ^ 64 → d < 2 ^ 64 → e < 2 ^ 64 → f2 < 2 ^ 64 →
    f (a, b, c) (d, e, f2) < 2 ^ 64
    ∧ ∀ j < 64, (f (a, b, c) (d, e, f2)).testBit j
        = g (colCode [a, b, c] j + 2 ^ 3 * colCode [d, e, f2] j)

/-- The tupled closure of `path1_count7` is the bitwise lift of the pure
boolean function `g` of its 7 arguments (f-part coded in the low 4 bits
of the assignment code, x-part above them). -/
def LiftP7 (f : Nat × Nat × Nat × Nat → Nat × Nat × Nat → Nat) (g : Nat → Bool) : Prop :=
  ∀ a b c d e f2 g2 : Nat, a < 2 ^ 64 → b < 2 ^ 64 → c < 2 ^ 64 → d < 2 ^ 64 → e < 2 ^ 64 → f2 < 2 ^ 64 → g2 < 2 ^ 64 →
    f (a, b, c, d) (e, f2, g2) < 2 ^ 64
    ∧ ∀ j < 64, (f (a, b, c, d) (e, f2, g2)).testBit j
        = g (colCode [a, b, c, d] j + 2 ^ 4 * colCode [e, f2, g2] j)

/-- The tupled closure of `path1_count8` is the bitwise lift of the pure
boolean function `g` of its 8 arguments (f-part coded in the low 4 bits
of the assignment code, x-part above them). -/
def LiftP8 (f : Nat × Nat × Nat × Nat → Nat × Nat × Nat × Nat → Nat) (g : Nat → Bool) : Prop :=
  ∀ a b c d e f2 g2 h2 : Nat, a < 2 ^ 64 → b < 2 ^ 64 → c < 2 ^ 64 → d < 2 ^ 64 → e < 2 ^ 64 → f2 < 2 ^ 64 → g2 < 2 ^ 64 → h2 < 2 ^ 64 →
    f (a, b, c, d) (e, f2, g2, h2) < 2 ^ 64
    ∧ ∀ j < 64, (f (a, b, c, d) (e, f2, g2, h2)).testBit j
        = g (colCode [a, b, c, d] j + 2 ^ 4 * colCode [e, f2, g2, h2] j)

/-- The tupled closure of `path1_count9` is the bitwise lift of the pure
boolean function `g` of its 9 arguments (f-part coded in the low 5 bits
of the assignment code, x-part above them). -/
def LiftP9 (f : Nat × Nat × Nat × Nat × Nat → Nat × Nat × Nat × Nat → Nat) (g : Nat → Bool) : Prop :=
  ∀ a b c d e f2 g2 h2 i2 : Nat, a < 2 ^ 64 → b < 2 ^ 64 → c < 2 ^ 64 → d < 2 ^ 64 → e < 2 ^ 64 → f2 < 2 ^ 64 → g2 < 2 ^ 64 → h2 < 2 ^ 64 → i2 < 2 ^ 64 →
    f (a, b, c, d, e) (f2, g2, h2, i2) < 2 ^ 64
    ∧ ∀ j < 64, (f (a, b, c, d, e) (f2, g2, h2, i2)).testBit j
        = g (colCode [a, b, c, d, e] j + 2 ^ 5 * colCode [f2, g2, h2, i2] j)

/-- The tupled closure of `path1_count10` is the bitwise lift of the pure
boolean function `g` of its 10 arguments (f-part coded in the low 5 bits
of the assignment code, x-part above them). -/
def LiftP10 (f : Nat × Nat × Nat × Nat × Nat → Nat × Nat × Nat × Nat × Nat → Nat) (g : Nat → Bool) : Prop :=
  ∀ a b c d e f2 g2 h2 i2 j2 : Nat, a < 2 ^ 64 → b < 2 ^ 64 → c < 2 ^ 64 → d < 2 ^ 64 → e < 2 ^ 64 → f2 < 2 ^ 64 → g2 < 2 ^ 64 → h2 < 2 ^ 64 → i2 < 2 ^ 64 → j2 < 2 ^ 64 →
    f (a, b, c, d, e) (f2, g2, h2, i2, j2) < 2 ^ 64
    ∧ ∀ j < 64, (f (a, b, c, d, e) (f2, g2, h2, i2, j2)).testBit j
        = g (colCode [a, b, c, d, e] j + 2 ^ 5 * colCode [f2, g2, h2, i2, j2] j)

/-- The list-closure counterpart for `path1_countnm`, lifting the same
pure boolean function `g`. -/
def LiftNM (m n : Nat) (f : List Nat → List Nat → Nat) (g : Nat → Bool) : Prop :=
  ∀ fs xs : List Nat, fs.length = m → xs.length = n →
    (∀ v ∈ fs, v < 2 ^ 64) → (∀ v ∈ xs, v < 2 ^ 64) →
    f fs xs < 2 ^ 64
    ∧ ∀ j < 64, (f fs xs).testBit j = g (colCode fs j + 2 ^ m * colCode xs j)

/-- Path Semantical Logic: counts the solutions of an (m+n)-argument
boolean function by reusing `countn` on boundary f-patterns and
subtracting the redundant first and last x-cases; sums and differences
are `u64`. -/
def path1_countnm (m n : Nat) (fL : List Nat → List Nat → Nat) : Nat :=
  let xs0 := List.replicate n 0
  let all_xs_zero := countn m (fun fs => fL fs xs0)
  let xsT := List.replicate n Tw
  let all_xs_one := countn m (fun fs => fL fs xsT)
  let xs01 := List.replicate n 0b01
  let fsT := List.replicate m Tw
  let all_fs_one := wsub (countn n (fun xs => fL fsT xs))
    (popcount64 (fL fsT xs01 &&& 0b11))
  let sum_fs_zero := ∑ i ∈ Finset.range m,
    wsub (countn n (fun xs => fL (fsT.set i Fw) xs))
      (popcount64 (fL (fsT.set i Fw) xs01 &&& 0b11))
  (all_xs_zero + all_xs_one + all_fs_one + sum_fs_zero) % 2 ^ 64

theorem colCode_replicate_zero (k j : Nat) : colCode (List.replicate k 0) j = 0 := by
  induction k with
  | zero => rfl
  | succ k ih => simp [List.replicate_succ, colCode_cons, ih]

theorem colCode_replicate_Tw (k : Nat) {j : Nat} (hj : j < 64) :
    colCode (List.replicate k Tw) j = 2 ^ k - 1 := by
  induction k with
  | zero => rfl
  | succ k ih =>
      rw [List.replicate_succ, colCode_cons, ih, testBit_Tw hj]
      have : 1 ≤ 2 ^ k := Nat.one_le_two_pow
      simp only [if_pos]
      rw [pow_succ]
      omega

theorem colCode_replicate_one_bit0 (k : Nat) :
    colCode (List.replicate k 1) 0 = 2 ^ k - 1 := by
  induction k with
  | zero => rfl
  | succ k ih =>
      rw [List.replicate_succ, colCode_cons, ih]
      have h1 : Nat.testBit 1 0 = true := by decide
      have : 1 ≤ 2 ^ k := Nat.one_le_two_pow
      rw [h1]
      simp only [if_pos]
      rw [pow_succ]
      omega

theorem colCode_replicate_one_bit1 (k : Nat) :
    colCode (List.replicate k 1) 1 = 0 := by
  induction k with
  | zero => rfl
  | succ k ih =>
      rw [List.replicate_succ, colCode_cons, ih]
      have h1 : Nat.testBit 1 1 = false := by decide
      rw [h1]
      simp

theorem colCode_setF (k i : Nat) (hik : i < k) {j : Nat} (hj : j < 64) :
    colCode ((List.replicate k Tw).set i Fw) j = (2 ^ k - 1) - 2 ^ i := by
  induction k generalizing i with
  | zero => omega
  | succ k ih =>
      cases i with
      | zero =>
          rw [List.replicate_succ, List.set_cons_zero, colCode_cons,
            colCode_replicate_Tw k hj, testBit_Fw]
          have : 1 ≤ 2 ^ k := Nat.one_le_two_pow
          simp only [if_neg Bool.false_ne_true]
          rw [pow_succ]
          omega
      | succ i =>
          rw [List.replicate_succ, List.set_cons_succ, colCode_cons,
            ih i (by omega), testBit_Tw hj]
          have h2i : 2 ^ i + 1 ≤ 2 ^ k := by
            have h1 : 2 ^ (i + 1) ≤ 2 ^ k := Nat.pow_le_pow_right (by norm_num) (by omega)
            have h2 : 1 ≤ 2 ^ i := Nat.one_le_two_pow
            rw [pow_succ] at h1
            omega
          simp only [if_pos]
          rw [pow_succ, pow_succ]
          omega

theorem mem_replicate_lt {k w : Nat} (hw : w < 2 ^ 64) :
    ∀ v ∈ List.replicate k w, v < 2 ^ 64 := by
  intro v hv
  rw [List.eq_of_mem_replicate hv]
  exact hw

theorem mem_set_lt {l : List Nat} {i w : Nat} (hl : ∀ v ∈ l, v < 2 ^ 64)
    (hw : w < 2 ^ 64) : ∀ v ∈ l.set i w, v < 2 ^ 64 := by
  intro v hv
  rcases List.mem_or_eq_of_mem_set hv with h | rfl
  · exact hl v h
  · exact hw

theorem countP_le_length_map {α : Type} (l : List α) (g : α → Bool) :
    l.countP g ≤ l.length := List.countP_le_length g

theorem path1_piece_sub (nv : Nat) (hn1 : 1 ≤ nv) (hn5 : nv ≤ 5) (gC : Nat → Bool) :
    wsub (satCount nv gC)
      ((if gC (2 ^ nv - 1) then 1 else 0) + (if gC 0 then 1 else 0))
    = (((List.range (2 ^ nv)).erase 0).erase (2 ^ nv - 1)).countP gC := by
  have h0 : (0 : Nat) ∈ List.range (2 ^ nv) := by
    rw [List.mem_range]
    positivity
  have hne : (2 ^ nv - 1 : Nat) ≠ 0 := by
    have h2 : (2 : Nat) ≤ 2 ^ nv := by
      calc (2 : Nat) = 2 ^ 1 := rfl
        _ ≤ 2 ^ nv := Nat.pow_le_pow_right (by norm_num) hn1
    omega
  have h1 : (2 ^ nv - 1 : Nat) ∈ (List.range (2 ^ nv)).erase 0 := by
    rw [List.mem_erase_of_ne hne, List.mem_range]
    have : 1 ≤ 2 ^ nv := Nat.one_le_two_pow
    omega
  have e1 : satCount nv gC
      = ((List.range (2 ^ nv)).erase 0).countP gC + (if gC 0 then 1 else 0) :=
    countP_erase gC h0
  have e2 : ((List.range (2 ^ nv)).erase 0).countP gC
      = (((List.range (2 ^ nv)).erase 0).erase (2 ^ nv - 1)).countP gC
        + (if gC (2 ^ nv - 1) then 1 else 0) :=
    countP_erase gC h1
  rw [wsub_eq (by omega) (satCount_lt_M (by omega) gC)]
  omega

/-- Evaluation of `path1_countnm` under a lift: the four contributions
count the assignment codes with all x-variables false, all x-variables
true, all f-variables true, and one f-variable false, the latter two over
the interior x-codes only. -/
theorem path1_countnm_eval (m n : Nat) (hm1 : 1 ≤ m) (hm5 : m ≤ 5)
    (hn1 : 1 ≤ n) (hn5 : n ≤ 5)
    (fL : List Nat → List Nat → Nat) (g : Nat → Bool) (hL : LiftNM m n fL g) :
    path1_countnm m n fL
      = ((List.range (2 ^ m)).map (fun c => c)).countP g
        + ((List.range (2 ^ m)).map (fun c => c + 2 ^ m * (2 ^ n - 1))).countP g
        + ((((List.range (2 ^ n)).erase 0).erase (2 ^ n - 1)).map
            (fun c => (2 ^ m - 1) + 2 ^ m * c)).countP g
        + ∑ i ∈ Finset.range m,
            ((((List.range (2 ^ n)).erase 0).erase (2 ^ n - 1)).map
              (fun c => ((2 ^ m - 1) - 2 ^ i) + 2 ^ m * c)).countP g := by
  have hb1 : (1 : Nat) < 2 ^ 64 := by norm_num
  have hA : countn m (fun fs => fL fs (List.replicate n 0))
      = ((List.range (2 ^ m)).map (fun c => c)).countP g := by
    have hlift : LiftOK m (fun fs => fL fs (List.replicate n 0)) (fun c => g c) := by
      intro fs hlen hb
      have h := hL fs (List.replicate n 0) hlen (by simp) hb
        (mem_replicate_lt (by norm_num))
      refine ⟨h.1, fun j hj => ?_⟩
      rw [h.2 j hj, colCode_replicate_zero]
      simp
    rw [countn_eq m hm1 _ _ hlift, Nat.mod_eq_of_lt (satCount_lt_M (by omega) _)]
    rw [List.countP_map]
    rfl
  have hB : countn m (fun fs => fL fs (List.replicate n Tw))
      = ((List.range (2 ^ m)).map (fun c => c + 2 ^ m * (2 ^ n - 1))).countP g := by
    have hlift : LiftOK m (fun fs => fL fs (List.replicate n Tw))
        (fun c => g (c + 2 ^ m * (2 ^ n - 1))) := by
      intro fs hlen hb
      have h := hL fs (List.replicate n Tw) hlen (by simp) hb (mem_replicate_lt Tw_lt)
      refine ⟨h.1, fun j hj => ?_⟩
      rw [h.2 j hj, colCode_replicate_Tw n hj]
    rw [countn_eq m hm1 _ _ hlift, Nat.mod_eq_of_lt (satCount_lt_M (by omega) _)]
    rw [List.countP_map]
    rfl
  have hsub : ∀ (fs : List Nat), fs.length = m → (∀ v ∈ fs, v < 2 ^ 64) →
      ∀ (cf : Nat), (∀ j < 64, colCode fs j = cf) →
      popcount64 (fL fs (List.replicate n 1) &&& 0b11)
        = (if g (cf + 2 ^ m * (2 ^ n - 1)) then 1 else 0)
          + (if g (cf + 2 ^ m * 0) then 1 else 0) := by
    intro fs hlen hbf cf hcf
    have h := hL fs (List.replicate n 1) hlen (by simp) hbf (mem_replicate_lt hb1)
    rw [show (0b11 : Nat) = 2 ^ 2 - 1 from rfl, popcount_masked _ 2 (by norm_num)]
    rw [show List.range 2 = [0, 1] from rfl]
    simp only [List.countP_cons, List.countP_nil]
    rw [h.2 0 (by norm_num), h.2 1 (by norm_num), hcf 0 (by norm_num), hcf 1 (by norm_num),
      colCode_replicate_one_bit0, colCode_replicate_one_bit1]
    omega
  have hC : wsub (countn n (fun xs => fL (List.replicate m Tw) xs))
      (popcount64 (fL (List.replicate m Tw) (List.replicate n 1) &&& 0b11))
      = ((((List.range (2 ^ n)).erase 0).erase (2 ^ n - 1)).map
          (fun c => (2 ^ m - 1) + 2 ^ m * c)).countP g := by
    have hlift : LiftOK n (fun xs => fL (List.replicate m Tw) xs)
        (fun c => g ((2 ^ m - 1) + 2 ^ m * c)) := by
      intro xs hlen hb
      have h := hL (List.replicate m Tw) xs (by simp) hlen (mem_replicate_lt Tw_lt) hb
      refine ⟨h.1, fun j hj => ?_⟩
      rw [h.2 j hj, colCode_replicate_Tw m hj]
    rw [countn_eq n hn1 _ _ hlift, Nat.mod_eq_of_lt (satCount_lt_M (by omega) _)]
    rw [hsub (List.replicate m Tw) (by simp) (mem_replicate_lt Tw_lt)
      (2 ^ m - 1) (fun j hj => colCode_replicate_Tw m hj)]
    rw [path1_piece_sub n hn1 hn5 (fun c => g ((2 ^ m - 1) + 2 ^ m * c))]
    rw [List.countP_map]
    rfl
  have hD : ∀ i ∈ Finset.range m,
      wsub (countn n (fun xs => fL ((List.replicate m Tw).set i Fw) xs))
        (popcount64 (fL ((List.replicate m Tw).set i Fw) (List.replicate n 1) &&& 0b11))
      = ((((List.range (2 ^ n)).erase 0).erase (2 ^ n - 1)).map
          (fun c => ((2 ^ m - 1) - 2 ^ i) + 2 ^ m * c)).countP g := by
    intro i hi
    rw [Finset.mem_range] at hi
    have hcf : ∀ j < 64, colCode ((List.replicate m Tw).set i Fw) j
        = (2 ^ m - 1) - 2 ^ i := fun j hj => colCode_setF m i hi hj
    have hlift : LiftOK n (fun xs => fL ((List.replicate m Tw).set i Fw) xs)
        (fun c => g (((2 ^ m - 1) - 2 ^ i) + 2 ^ m * c)) := by
      intro xs hlen hb
      have h := hL ((List.replicate m Tw).set i Fw) xs (by simp) hlen
        (mem_set_lt (mem_replicate_lt Tw_lt) (by decide)) hb
      refine ⟨h.1, fun j hj => ?_⟩
      rw [h.2 j hj, hcf j hj]
    rw [countn_eq n hn1 _ _ hlift, Nat.mod_eq_of_lt (satCount_lt_M (by omega) _)]
    rw [hsub _ (by simp) (mem_set_lt (mem_replicate_lt Tw_lt) (by decide)) _ hcf]
    rw [path1_piece_sub n hn1 hn5 (fun c => g (((2 ^ m - 1) - 2 ^ i) + 2 ^ m * c))]
    rw [List.countP_map]
    rfl
  have h2m : (2 : Nat) ^ m ≤ 32 := by
    calc (2 : Nat) ^ m ≤ 2 ^ 5 := Nat.pow_le_pow_right (by norm_num) hm5
      _ = 32 := by norm_num
  have h2n : (2 : Nat) ^ n ≤ 32 := by
    calc (2 : Nat) ^ n ≤ 2 ^ 5 := Nat.pow_le_pow_right (by norm_num) hn5
      _ = 32 := by norm_num
  have bA : ((List.range (2 ^ m)).map (fun c => c)).countP g ≤ 2 ^ m := by
    calc ((List.range (2 ^ m)).map (fun c => c)).countP g
        ≤ ((List.range (2 ^ m)).map (fun c => c)).length := countP_le_length_map _ g
      _ = 2 ^ m := by simp
  have bB : ((List.range (2 ^ m)).map (fun c => c + 2 ^ m * (2 ^ n - 1))).countP g
      ≤ 2 ^ m := by
    calc ((List.range (2 ^ m)).map (fun c => c + 2 ^ m * (2 ^ n - 1))).countP g
        ≤ ((List.range (2 ^ m)).map (fun c => c + 2 ^ m * (2 ^ n - 1))).length :=
          countP_le_length_map _ g
      _ = 2 ^ m := by simp
  have lenE : (((List.range (2 ^ n)).erase 0).erase (2 ^ n - 1)).length ≤ 2 ^ n := by
    calc (((List.range (2 ^ n)).erase 0).erase (2 ^ n - 1)).length
        ≤ ((List.range (2 ^ n)).erase 0).length := List.length_erase_le _ _
      _ ≤ (List.range (2 ^ n)).length := List.length_erase_le _ _
      _ = 2 ^ n := by simp
  have bC : ((((List.range (2 ^ n)).erase 0).erase (2 ^ n - 1)).map
      (fun c => (2 ^ m - 1) + 2 ^ m * c)).countP g ≤ 2 ^ n := by
    calc ((((List.range (2 ^ n)).erase 0).erase (2 ^ n - 1)).map
        (fun c => (2 ^ m - 1) + 2 ^ m * c)).countP g
        ≤ ((((List.range (2 ^ n)).erase 0).erase (2 ^ n - 1)).map
            (fun c => (2 ^ m - 1) + 2 ^ m * c)).length := countP_le_length_map _ g
      _ = (((List.range (2 ^ n)).erase 0).erase (2 ^ n - 1)).length := by
          rw [List.length_map]
      _ ≤ 2 ^ n := lenE
  have bD : (∑ i ∈ Finset.range m,
      ((((List.range (2 ^ n)).erase 0).erase (2 ^ n - 1)).map
        (fun c => ((2 ^ m - 1) - 2 ^ i) + 2 ^ m * c)).countP g) ≤ m * 2 ^ n := by
    calc (∑ i ∈ Finset.range m,
        ((((List.range (2 ^ n)).erase 0).erase (2 ^ n - 1)).map
          (fun c => ((2 ^ m - 1) - 2 ^ i) + 2 ^ m * c)).countP g)
        ≤ ∑ _i ∈ Finset.range m, 2 ^ n := by
          apply Finset.sum_le_sum
          intro i _
          calc ((((List.range (2 ^ n)).erase 0).erase (2 ^ n - 1)).map
              (fun c => ((2 ^ m - 1) - 2 ^ i) + 2 ^ m * c)).countP g
              ≤ ((((List.range (2 ^ n)).erase 0).erase (2 ^ n - 1)).map
                  (fun c => ((2 ^ m - 1) - 2 ^ i) + 2 ^ m * c)).length :=
                countP_le_length_map _ g
            _ = (((List.range (2 ^ n)).erase 0).erase (2 ^ n - 1)).length := by
                rw [List.length_map]
            _ ≤ 2 ^ n := lenE
      _ = m * 2 ^ n := by
          rw [Finset.sum_const, Finset.card_range, smul_eq_mul]
  simp only [path1_countnm]
  rw [hA, hB, hC, Finset.sum_congr rfl hD]
  apply Nat.mod_eq_of_lt
  have hm32 : m ≤ 5 := hm5
  calc _ ≤ 2 ^ m + 2 ^ m + 2 ^ n + m * 2 ^ n := by
        apply Nat.add_le_add
        apply Nat.add_le_add
        apply Nat.add_le_add bA bB
        exact bC
        exact bD
    _ < 2 ^ 64 := by
        have : m * 2 ^ n ≤ 5 * 32 := Nat.mul_le_mul hm32 h2n
        omega

/-- A popcount of a masked lifted word counts the pure function over the
column codes of the first `B` bit positions. -/
theorem popcount_group (w msk B : Nat) (hB : B ≤ 64) (hmsk : msk = 2 ^ B - 1)
    (g : Nat → Bool) (code : Nat → Nat)
    (hbit : ∀ j < 64, w.testBit j = g (code j)) :
    popcount64 (w &&& msk) = ((List.range B).map code).countP g := by
  rw [hmsk, popcount_masked w B hB, List.countP_map]
  apply List.countP_congr
  intro j hj
  rw [List.mem_range] at hj
  simp only [Function.comp]
  rw [hbit j (by omega)]

/-- The unmasked variant: a popcount of a lifted word counts the pure
function over the column codes of all 64 bit positions. -/
theorem popcount_group64 (w : Nat) (g : Nat → Bool) (code : Nat → Nat)
    (hbit : ∀ j < 64, w.testBit j = g (code j)) :
    popcount64 w = ((List.range 64).map code).countP g := by
  unfold popcount64
  rw [List.countP_map]
  apply List.countP_congr
  intro j hj
  rw [List.mem_range] at hj
  simp only [Function.comp]
  rw [hbit j hj]

theorem path1_eq3 (fT : Nat × Nat → Nat → Nat) (fL : List Nat → List Nat → Nat)
    (g : Nat → Bool) (hP : LiftP3 fT g) (hL : LiftNM 2 1 fL g) :
    path1_countnm 2 1 fL = path1_count3 fT := by
  obtain ⟨-, hb1⟩ := hP 0b00001111 0b00110011 0b01010101
    (by norm_num) (by norm_num) (by norm_num)
  rw [path1_countnm_eval 2 1 (by norm_num) (by norm_num) (by norm_num) (by norm_num) fL g hL]
  unfold path1_count3
  rw [popcount_group _ 0b11111111 8 (by norm_num) (by norm_num) g
    (fun j => colCode [0b00001111, 0b00110011] j + 2 ^ 2 * colCode [0b01010101] j) hb1]
  simp only [Finset.sum_range_succ, Finset.sum_range_zero, zero_add]
  simp only [← List.countP_append]
  exact List.Perm.countP_eq g (by decide)

theorem path1_eq4 (fT : Nat × Nat → Nat × Nat → Nat) (fL : List Nat → List Nat → Nat)
    (g : Nat → Bool) (hP : LiftP4 fT g) (hL : LiftNM 2 2 fL g) :
    path1_countnm 2 2 fL = path1_count4 fT := by
  obtain ⟨-, hb1⟩ := hP 0b00000011111111 0b00111100001111 0b01001100110011 0b01010101010101
    (by norm_num) (by norm_num) (by norm_num) (by norm_num)
  rw [path1_countnm_eval 2 2 (by norm_num) (by norm_num) (by norm_num) (by norm_num) fL g hL]
  unfold path1_count4
  rw [popcount_group _ 0b11111111111111 14 (by norm_num) (by norm_num) g
    (fun j => colCode [0b00000011111111, 0b00111100001111] j + 2 ^ 2 * colCode [0b01001100110011, 0b01010101010101] j) hb1]
  simp only [Finset.sum_range_succ, Finset.sum_range_zero, zero_add]
  simp only [← List.countP_append]
  exact List.Perm.countP_eq g (by decide)

theorem path1_eq5 (fT : Nat × Nat × Nat → Nat × Nat → Nat) (fL : List Nat → List Nat → Nat)
    (g : Nat → Bool) (hP : LiftP5 fT g) (hL : LiftNM 3 2 fL g) :
    path1_countnm 3 2 fL = path1_count5 fT := by
  obtain ⟨-, hb1⟩ := hP 0b000000000011111111111111 0b000011111100000011111111 0b001100111100111100001111 0b010101001101001100110011 0b010101010101010101010101
    (by norm_num) (by norm_num) (by norm_num) (by norm_num) (by norm_num)
  rw [path1_countnm_eval 3 2 (by norm_num) (by norm_num) (by norm_num) (by norm_num) fL g hL]
  unfold path1_count5
  rw [popcount_group _ 0b111111111111111111111111 24 (by norm_num) (by norm_num) g
    (fun j => colCode [0b000000000011111111111111, 0b000011111100000011111111, 0b001100111100111100001111] j + 2 ^ 3 * colCode [0b010101001101001100110011, 0b010101010101010101010101] j) hb1]
  simp only [Finset.sum_range_succ, Finset.sum_range_zero, zero_add]
  simp only [← List.countP_append]
  exact List.Perm.countP_eq g (by decide)

theorem path1_eq6 (fT : Nat × Nat × Nat → Nat × Nat × Nat → Nat) (fL : List Nat → List Nat → Nat)
    (g : Nat → Bool) (hP : LiftP6 fT g) (hL : LiftNM 3 3 fL g) :
    path1_countnm 3 3 fL = path1_count6 fT := by
  obtain ⟨-, hb1⟩ := hP 0b0000000000000011111111111111111111111111 0b0000111111111100000000001111111111111111 0b0011001111111100111111110000000011111111 0b0101010000111101000011110000111100001111 0b0101010011001101001100110011001100110011 0b0101010101010101010101010101010101010101
    (by norm_num) (by norm_num) (by norm_num) (by norm_num) (by norm_num) (by norm_num)
  rw [path1_countnm_eval 3 3 (by norm_num) (by norm_num) (by norm_num) (by norm_num) fL g hL]
  unfold path1_count6
  rw [popcount_group _ 0b1111111111111111111111111111111111111111 40 (by norm_num) (by norm_num) g
    (fun j => colCode [0b0000000000000011111111111111111111111111, 0b0000111111111100000000001111111111111111, 0b0011001111111100111111110000000011111111] j + 2 ^ 3 * colCode [0b0101010000111101000011110000111100001111, 0b0101010011001101001100110011001100110011, 0b0101010101010101010101010101010101010101] j) hb1]
  simp only [Finset.sum_range_succ, Finset.sum_range_zero, zero_add]
  simp only [← List.countP_append]
  exact List.Perm.countP_eq g (by decide)

theorem path1_eq7 (fT : Nat × Nat × Nat × Nat → Nat × Nat × Nat → Nat) (fL : List Nat → List Nat → Nat)
    (g : Nat → Bool) (hP : LiftP7 fT g) (hL : LiftNM 4 3 fL g) :
    path1_countnm 4 3 fL = path1_count7 fT := by
  obtain ⟨-, hb1⟩ := hP 0b00000000000000000000001111111111111111111111111111111111111111 0b00000000111111111111110000000000000011111111111111111111111111 0b00001111000011111111110000111111111100000000001111111111111111 0b00110011001100111111110011001111111100111111110000000011111111 0b01010101010101000011110101010000111101000011110000111100001111 0b01010101010101001100110101010011001101001100110011001100110011 0b01010101010101010101010101010101010101010101010101010101010101
    (by norm_num) (by norm_num) (by norm_num) (by norm_num) (by norm_num) (by norm_num) (by norm_num)
  rw [path1_countnm_eval 4 3 (by norm_num) (by norm_num) (by norm_num) (by norm_num) fL g hL]
  unfold path1_count7
  rw [popcount_group _ 0b11111111111111111111111111111111111111111111111111111111111111 62 (by norm_num) (by norm_num) g
    (fun j => colCode [0b00000000000000000000001111111111111111111111111111111111111111, 0b00000000111111111111110000000000000011111111111111111111111111, 0b00001111000011111111110000111111111100000000001111111111111111, 0b00110011001100111111110011001111111100111111110000000011111111] j + 2 ^ 4 * colCode [0b01010101010101000011110101010000111101000011110000111100001111, 0b01010101010101001100110101010011001101001100110011001100110011, 0b01010101010101010101010101010101010101010101010101010101010101] j) hb1]
  simp only [Finset.sum_range_succ, Finset.sum_range_zero, zero_add]
  simp only [← List.countP_append]
  exact List.Perm.countP_eq g (by decide)

theorem path1_eq8 (fT : Nat × Nat × Nat × Nat → Nat × Nat × Nat × Nat → Nat) (fL : List Nat → List Nat → Nat)
    (g : Nat → Bool) (hP : LiftP8 fT g) (hL : LiftNM 4 4 fL g) :
    path1_countnm 4 4 fL = path1_count8 fT := by
  obtain ⟨-, hb1⟩ := hP 0b0000000000000000000000000000001111111111111111111111111111111111 0b0000000011111111111111111111110000000000000000000000111111111111 0b0000111100001111111111111111110000111111111111111111000000000000 0b0011001100110011111111111111110011001111111111111111001111111111 0b0101010101010100000000111111110101010000000011111111010000000011 0b0101010101010100001111000011110101010000111100001111010000111100 0b0101010101010100110011001100110101010011001100110011010011001100 0b0101010101010101010101010101010101010101010101010101010101010101
    (by norm_num) (by norm_num) (by norm_num) (by norm_num) (by norm_num) (by norm_num) (by norm_num) (by norm_num)
  obtain ⟨-, hb2⟩ := hP 0b11111111111111111111111111111111111111 0b11111111111111111111111111111111111111 0b00000011111111111111111111111111111111 0b11111100000000000000001111111111111111 0b11111100000000111111110000000011111111 0b00111100001111000011110000111100001111 0b11001100110011001100110011001100110011 0b01010101010101010101010101010101010101
    (by norm_num) (by norm_num) (by norm_num) (by norm_num) (by norm_num) (by norm_num) (by norm_num) (by norm_num)
  rw [path1_countnm_eval 4 4 (by norm_num) (by norm_num) (by norm_num) (by norm_num) fL g hL]
  unfold path1_count8
  rw [popcount_group64 _ g
    (fun j => colCode [0b0000000000000000000000000000001111111111111111111111111111111111, 0b0000000011111111111111111111110000000000000000000000111111111111, 0b0000111100001111111111111111110000111111111111111111000000000000, 0b0011001100110011111111111111110011001111111111111111001111111111] j + 2 ^ 4 * colCode [0b0101010101010100000000111111110101010000000011111111010000000011, 0b0101010101010100001111000011110101010000111100001111010000111100, 0b0101010101010100110011001100110101010011001100110011010011001100, 0b0101010101010101010101010101010101010101010101010101010101010101] j) hb1]
  rw [popcount_group _ 0b11111111111111111111111111111111111111 38 (by norm_num) (by norm_num) g
    (fun j => colCode [0b11111111111111111111111111111111111111, 0b11111111111111111111111111111111111111, 0b00000011111111111111111111111111111111, 0b11111100000000000000001111111111111111] j + 2 ^ 4 * colCode [0b11111100000000111111110000000011111111, 0b00111100001111000011110000111100001111, 0b11001100110011001100110011001100110011, 0b01010101010101010101010101010101010101] j) hb2]
  simp only [Finset.sum_range_succ, Finset.sum_range_zero, zero_add]
  simp only [← List.countP_append]
  exact List.Perm.countP_eq g (by decide)

theorem path1_eq9 (fT : Nat × Nat × Nat × Nat × Nat → Nat × Nat × Nat × Nat → Nat) (fL : List Nat → List Nat → Nat)
    (g : Nat → Bool) (hP : LiftP9 fT g) (hL : LiftNM 5 4 fL g) :
    path1_countnm 5 4 fL = path1_count9 fT := by
  obtain ⟨-, hb1⟩ := hP 0b0000000000000000000000000000000000000000000000111111111111111111 0b0000000000000000111111111111111111111111111111000000000000000000 0b0000000011111111000000001111111111111111111111000000001111111111 0b0000111100001111000011110000111111111111111111000011110000111111 0b0011001100110011001100110011001111111111111111001100110011001111 0b0101010101010101010101010101010000000011111111010101010101010000 0b0101010101010101010101010101010000111100001111010101010101010000 0b0101010101010101010101010101010011001100110011010101010101010011 0b0101010101010101010101010101010101010101010101010101010101010101
    (by norm_num) (by norm_num) (by norm_num) (by norm_num) (by norm_num) (by norm_num) (by norm_num) (by norm_num) (by norm_num)
  obtain ⟨-, hb2⟩ := hP 0b1111111111111111111111111111111111111111111111111111111111111111 0b0000000000001111111111111111111111111111111111111111111111111111 0b1111111111110000000000000000000000111111111111111111111111111111 0b1111111111110000111111111111111111000000000000000000111111111111 0b1111111111110011001111111111111111001111111111111111000000000000 0b0000111111110101010000000011111111010000000011111111000000001111 0b1111000011110101010000111100001111010000111100001111000011110000 0b0011001100110101010011001100110011010011001100110011001100110011 0b0101010101010101010101010101010101010101010101010101010101010101
    (by norm_num) (by norm_num) (by norm_num) (by norm_num) (by norm_num) (by norm_num) (by norm_num) (by norm_num) (by norm_num)
  obtain ⟨-, hb3⟩ := hP 0b11111111111111111111 0b11111111111111111111 0b11111111111111111111 0b11111111111111111111 0b00001111111111111111 0b11110000000011111111 0b11110000111100001111 0b00110011001100110011 0b01010101010101010101
    (by norm_num) (by norm_num) (by norm_num) (by norm_num) (by norm_num) (by norm_num) (by norm_num) (by norm_num) (by norm_num)
  rw [path1_countnm_eval 5 4 (by norm_num) (by norm_num) (by norm_num) (by norm_num) fL g hL]
  unfold path1_count9
  rw [popcount_group64 _ g
    (fun j => colCode [0b0000000000000000000000000000000000000000000000111111111111111111, 0b0000000000000000111111111111111111111111111111000000000000000000, 0b0000000011111111000000001111111111111111111111000000001111111111, 0b0000111100001111000011110000111111111111111111000011110000111111, 0b0011001100110011001100110011001111111111111111001100110011001111] j + 2 ^ 5 * colCode [0b0101010101010101010101010101010000000011111111010101010101010000, 0b0101010101010101010101010101010000111100001111010101010101010000, 0b0101010101010101010101010101010011001100110011010101010101010011, 0b0101010101010101010101010101010101010101010101010101010101010101] j) hb1]
  rw [popcount_group64 _ g
    (fun j => colCode [0b1111111111111111111111111111111111111111111111111111111111111111, 0b0000000000001111111111111111111111111111111111111111111111111111, 0b1111111111110000000000000000000000111111111111111111111111111111, 0b1111111111110000111111111111111111000000000000000000111111111111, 0b1111111111110011001111111111111111001111111111111111000000000000] j + 2 ^ 5 * colCode [0b0000111111110101010000000011111111010000000011111111000000001111, 0b1111000011110101010000111100001111010000111100001111000011110000, 0b0011001100110101010011001100110011010011001100110011001100110011, 0b0101010101010101010101010101010101010101010101010101010101010101] j) hb2]
  rw [popcount_group _ 0b11111111111111111111 20 (by norm_num) (by norm_num) g
    (fun j => colCode [0b11111111111111111111, 0b11111111111111111111, 0b11111111111111111111, 0b11111111111111111111, 0b00001111111111111111] j + 2 ^ 5 * colCode [0b11110000000011111111, 0b11110000111100001111, 0b00110011001100110011, 0b01010101010101010101] j) hb3]
  simp only [Finset.sum_range_succ, Finset.sum_range_zero, zero_add]
  simp only [← List.countP_append]
  exact List.Perm.countP_eq g (by decide)

set_option maxRecDepth 10000 in
theorem path1_eq10 (fT : Nat × Nat × Nat × Nat × Nat → Nat × Nat × Nat × Nat × Nat → Nat) (fL : List Nat → List Nat → Nat)
    (g : Nat → Bool) (hP : LiftP10 fT g) (hL : LiftNM 5 5 fL g) :
    path1_countnm 5 5 fL = path1_count10 fT := by
  obtain ⟨-, hb1⟩ := hP 0b0000000000000000000000000000000000000000000000000000000000000011 0b0000000000000000111111111111111111111111111111111111111111111100 0b0000000011111111000000001111111111111111111111111111111111111100 0b0000111100001111000011110000111111111111111111111111111111111100 0b0011001100110011001100110011001111111111111111111111111111111100 0b0101010101010101010101010101010000000000000000111111111111111101 0b0101010101010101010101010101010000000011111111000000001111111101 0b0101010101010101010101010101010000111100001111000011110000111101 0b0101010101010101010101010101010011001100110011001100110011001101 0b0101010101010101010101010101010101010101010101010101010101010101
    (by norm_num) (by norm_num) (by norm_num) (by norm_num) (by norm_num) (by norm_num) (by norm_num) (by norm_num) (by norm_num) (by norm_num)
  obtain ⟨-, hb2⟩ := hP 0b1111111111111111111111111111111111111111111111111111111111111111 0b0000000000000000000000000000000000000000000011111111111111111111 0b0000001111111111111111111111111111111111111100000000000000000000 0b0011110000111111111111111111111111111111111100001111111111111111 0b1100110011001111111111111111111111111111111100110011111111111111 0b0101010101010000000000000000111111111111111101010100000000000000 0b0101010101010000000011111111000000001111111101010100000000111111 0b0101010101010000111100001111000011110000111101010100001111000011 0b0101010101010011001100110011001100110011001101010100110011001100 0b0101010101010101010101010101010101010101010101010101010101010101
    (by norm_num) (by norm_num) (by norm_num) (by norm_num) (by norm_num) (by norm_num) (by norm_num) (by norm_num) (by norm_num) (by norm_num)
  obtain ⟨-, hb3⟩ := hP 0b1111111111111111111111111111111111111111111111111111111111111111 0b1111111111111111111111111111111111111111111111111111111111111111 0b0000000000000000001111111111111111111111111111111111111111111111 0b1111111111111111110000000000000000000000000000000000111111111111 0b1111111111111111110011111111111111111111111111111111000000000000 0b0011111111111111110100000000000000001111111111111111000000000000 0b1100000000111111110100000000111111110000000011111111000000001111 0b1100001111000011110100001111000011110000111100001111000011110000 0b1100110011001100110100110011001100110011001100110011001100110011 0b0101010101010101010101010101010101010101010101010101010101010101
    (by norm_num) (by norm_num) (by norm_num) (by norm_num) (by norm_num) (by norm_num) (by norm_num) (by norm_num) (by norm_num) (by norm_num)
  obtain ⟨-, hb4⟩ := hP 0b1111111111111111111111111111111111111111111111111111 0b1111111111111111111111111111111111111111111111111111 0b1111111111111111111111111111111111111111111111111111 0b1111111111111111111111111111111111111111111111111111 0b0000000000000000000011111111111111111111111111111111 0b0000111111111111111100000000000000001111111111111111 0b1111000000001111111100000000111111110000000011111111 0b1111000011110000111100001111000011110000111100001111 0b0011001100110011001100110011001100110011001100110011 0b0101010101010101010101010101010101010101010101010101
    (by norm_num) (by norm_num) (by norm_num) (by norm_num) (by norm_num) (by norm_num) (by norm_num) (by norm_num) (by norm_num) (by norm_num)
  rw [path1_countnm_eval 5 5 (by norm_num) (by norm_num) (by norm_num) (by norm_num) fL g hL]
  unfold path1_count10
  rw [popcount_group64 _ g
    (fun j => colCode [0b0000000000000000000000000000000000000000000000000000000000000011, 0b0000000000000000111111111111111111111111111111111111111111111100, 0b0000000011111111000000001111111111111111111111111111111111111100, 0b0000111100001111000011110000111111111111111111111111111111111100, 0b0011001100110011001100110011001111111111111111111111111111111100] j + 2 ^ 5 * colCode [0b0101010101010101010101010101010000000000000000111111111111111101, 0b0101010101010101010101010101010000000011111111000000001111111101, 0b0101010101010101010101010101010000111100001111000011110000111101, 0b0101010101010101010101010101010011001100110011001100110011001101, 0b0101010101010101010101010101010101010101010101010101010101010101] j) hb1]
  rw [popcount_group64 _ g
    (fun j => colCode [0b1111111111111111111111111111111111111111111111111111111111111111, 0b0000000000000000000000000000000000000000000011111111111111111111, 0b0000001111111111111111111111111111111111111100000000000000000000, 0b0011110000111111111111111111111111111111111100001111111111111111, 0b1100110011001111111111111111111111111111111100110011111111111111] j + 2 ^ 5 * colCode [0b0101010101010000000000000000111111111111111101010100000000000000, 0b0101010101010000000011111111000000001111111101010100000000111111, 0b0101010101010000111100001111000011110000111101010100001111000011, 0b0101010101010011001100110011001100110011001101010100110011001100, 0b0101010101010101010101010101010101010101010101010101010101010101] j) hb2]
  rw [popcount_group64 _ g
    (fun j => colCode [0b1111111111111111111111111111111111111111111111111111111111111111, 0b1111111111111111111111111111111111111111111111111111111111111111, 0b0000000000000000001111111111111111111111111111111111111111111111, 0b1111111111111111110000000000000000000000000000000000111111111111, 0b1111111111111111110011111111111111111111111111111111000000000000] j + 2 ^ 5 * colCode [0b0011111111111111110100000000000000001111111111111111000000000000, 0b1100000000111111110100000000111111110000000011111111000000001111, 0b1100001111000011110100001111000011110000111100001111000011110000, 0b1100110011001100110100110011001100110011001100110011001100110011, 0b0101010101010101010101010101010101010101010101010101010101010101] j) hb3]
  rw [popcount_group _ 0b1111111111111111111111111111111111111111111111111111 52 (by norm_num) (by norm_num) g
    (fun j => colCode [0b1111111111111111111111111111111111111111111111111111, 0b1111111111111111111111111111111111111111111111111111, 0b1111111111111111111111111111111111111111111111111111, 0b1111111111111111111111111111111111111111111111111111, 0b0000000000000000000011111111111111111111111111111111] j + 2 ^ 5 * colCode [0b0000111111111111111100000000000000001111111111111111, 0b1111000000001111111100000000111111110000000011111111, 0b1111000011110000111100001111000011110000111100001111, 0b0011001100110011001100110011001100110011001100110011, 0b0101010101010101010101010101010101010101010101010101] j) hb4]
  simp only [Finset.sum_range_succ, Finset.sum_range_zero, zero_add]
  simp only [← List.countP_append]
  exact List.Perm.countP_eq g (by decide)


/-- C2: for every arity K = 3..10, splitting the K arguments into the
m = ceil(K/2) function-type variables and n = floor(K/2) normal variables
used by the library, `path1_countnm m n` applied to a list closure that
lifts the same pure boolean function as the tupled closure handed to the
hand-woven `path1_countK` returns exactly the same count: the generic
path semantical counting routine agrees with every specialised one. -/
theorem claim_C2 :
    (∀ (g : Nat → Bool) (fT : Nat × Nat → Nat → Nat)
        (fL : List Nat → List Nat → Nat),
      LiftP3 fT g → LiftNM 2 1 fL g → path1_countnm 2 1 fL = path1_count3 fT)
  ∧ (∀ (g : Nat → Bool) (fT : Nat × Nat → Nat × Nat → Nat)
        (fL : List Nat → List Nat → Nat),
      LiftP4 fT g → LiftNM 2 2 fL g → path1_countnm 2 2 fL = path1_count4 fT)
  ∧ (∀ (g : Nat → Bool) (fT : Nat × Nat × Nat → Nat × Nat → Nat)
        (fL : List Nat → List Nat → Nat),
      LiftP5 fT g → LiftNM 3 2 fL g → path1_countnm 3 2 fL = path1_count5 fT)
  ∧ (∀ (g : Nat → Bool) (fT : Nat × Nat × Nat → Nat × Nat × Nat → Nat)
        (fL : List Nat → List Nat → Nat),
      LiftP6 fT g → LiftNM 3 3 fL g → path1_countnm 3 3 fL = path1_count6 fT)
  ∧ (∀ (g : Nat → Bool) (fT : Nat × Nat × Nat × Nat → Nat × Nat × Nat → Nat)
        (fL : List Nat → List Nat → Nat),
      LiftP7 fT g → LiftNM 4 3 fL g → path1_countnm 4 3 fL = path1_count7 fT)
  ∧ (∀ (g : Nat → Bool) (fT : Nat × Nat × Nat × Nat → Nat × Nat × Nat × Nat → Nat)
        (fL : List Nat → List Nat → Nat),
      LiftP8 fT g → LiftNM 4 4 fL g → path1_countnm 4 4 fL = path1_count8 fT)
  ∧ (∀ (g : Nat → Bool) (fT : Nat × Nat × Nat × Nat × Nat → Nat × Nat × Nat × Nat → Nat)
        (fL : List Nat → List Nat → Nat),
      LiftP9 fT g → LiftNM 5 4 fL g → path1_countnm 5 4 fL = path1_count9 fT)
  ∧ (∀ (g : Nat → Bool) (fT : Nat × Nat × Nat × Nat × Nat → Nat × Nat × Nat × Nat × Nat → Nat)
        (fL : List Nat → List Nat → Nat),
      LiftP10 fT g → LiftNM 5 5 fL g → path1_countnm 5 5 fL = path1_count10 fT) :=
  ⟨fun g fT fL hP hL => path1_eq3 fT fL g hP hL,
   fun g fT fL hP hL => path1_eq4 fT fL g hP hL,
   fun g fT fL hP hL => path1_eq5 fT fL g hP hL,
   fun g fT fL hP hL => path1_eq6 fT fL g hP hL,
   fun g fT fL hP hL => path1_eq7 fT fL g hP hL,
   fun g fT fL hP hL => path1_eq8 fT fL g hP hL,
   fun g fT fL hP hL => path1_eq9 fT fL g hP hL,
   fun g fT fL hP hL => path1_eq10 fT fL g hP hL⟩

theorem claim_C2_witness :
    path1_countnm 2 1 (fun _ _ => Tw) = path1_count3 (fun _ _ => Tw)
  ∧ path1_countnm 2 2 (fun _ _ => Tw) = path1_count4 (fun _ _ => Tw)
  ∧ path1_countnm 3 2 (fun _ _ => Tw) = path1_count5 (fun _ _ => Tw)
  ∧ path1_countnm 3 3 (fun _ _ => Tw) = path1_count6 (fun _ _ => Tw)
  ∧ path1_countnm 4 3 (fun _ _ => Tw) = path1_count7 (fun _ _ => Tw)
  ∧ path1_countnm 4 4 (fun _ _ => Tw) = path1_count8 (fun _ _ => Tw)
  ∧ path1_countnm 5 4 (fun _ _ => Tw) = path1_count9 (fun _ _ => Tw)
  ∧ path1_countnm 5 5 (fun _ _ => Tw) = path1_count10 (fun _ _ => Tw) := by
  have hNM : ∀ m n : Nat, LiftNM m n (fun _ _ => Tw) (fun _ => true) := by
    intro m n fs xs h1 h2 h3 h4
    exact ⟨Tw_lt, fun j hj => testBit_Tw hj⟩
  refine ⟨?_, ?_, ?_, ?_, ?_, ?_, ?_, ?_⟩
  · exact claim_C2.1 (fun _ => true) (fun _ _ => Tw) (fun _ _ => Tw)
      (by intro a b c ha hb hc; exact ⟨Tw_lt, fun j hj => testBit_Tw hj⟩) (hNM 2 1)
  · exact claim_C2.2.1 (fun _ => true) (fun _ _ => Tw) (fun _ _ => Tw)
      (by intro a b c d ha hb hc hd; exact ⟨Tw_lt, fun j hj => testBit_Tw hj⟩) (hNM 2 2)
  · exact claim_C2.2.2.1 (fun _ => true) (fun _ _ => Tw) (fun _ _ => Tw)
      (by intro a b c d e ha hb hc hd he
          exact ⟨Tw_lt, fun j hj => testBit_Tw hj⟩) (hNM 3 2)
  · exact claim_C2.2.2.2.1 (fun _ => true) (fun _ _ => Tw) (fun _ _ => Tw)
      (by intro a b c d e f2 ha hb hc hd he hf
          exact ⟨Tw_lt, fun j hj => testBit_Tw hj⟩) (hNM 3 3)
  · exact claim_C2.2.2.2.2.1 (fun _ => true) (fun _ _ => Tw) (fun _ _ => Tw)
      (by intro a b c d e f2 g2 ha hb hc hd he hf hg
          exact ⟨Tw_lt, fun j hj => testBit_Tw hj⟩) (hNM 4 3)
  · exact claim_C2.2.2.2.2.2.1 (fun _ => true) (fun _ _ => Tw) (fun _ _ => Tw)
      (by intro a b c d e f2 g2 h2 ha hb hc hd he hf hg hh
          exact ⟨Tw_lt, fun j hj => testBit_Tw hj⟩) (hNM 4 4)
  · exact claim_C2.2.2.2.2.2.2.1 (fun _ => true) (fun _ _ => Tw) (fun _ _ => Tw)
      (by intro a b c d e f2 g2 h2 i2 ha hb hc hd he hf hg hh hi
          exact ⟨Tw_lt, fun j hj => testBit_Tw hj⟩) (hNM 5 4)
  · exact claim_C2.2.2.2.2.2.2.2 (fun _ => true) (fun _ _ => Tw) (fun _ _ => Tw)
      (by intro a b c d e f2 g2 h2 i2 j2 ha hb hc hd he hf hg hh hi hjj
          exact ⟨Tw_lt, fun j hj => testBit_Tw hj⟩) (hNM 5 5)

end PP
